import Mathlib

/-!
Shallow embedding of the gdb0 RISC-V zkVM simulator core
(src/vm/memory.rs, src/vm/session_cycle.rs, src/vm/simulator.rs,
src/vm/syscall.rs, src/debug/debugger.rs) and proofs settling the
frozen claims about it.

Conventions used throughout:
* Machine integers (`u32`, `usize`) are modelled as `Nat`.  The source
  performs no wrapping arithmetic on the paths modelled here; where a
  claim's statement could interact with 32-bit overflow the theorem
  carries an explicit `< 2^32` hypothesis.
* Bit operations on 32-bit words are translated to exact `/ % *`
  arithmetic: `w & 0xff = w % 256`, `(w >> 8) & 0xff = w / 256 % 256`,
  `w & 0xffffff00 = w / 256 * 256`, `addr >> 10 = addr / 1024`,
  `addr & 0x3ff = addr % 1024`, and bitwise-or of disjoint masked parts
  becomes `+`.  Each definition notes the source expression it mirrors.
* `BTreeMap<u32, [u32; 256]>` with pages lazily inserted as all-zero is
  modelled as the total function `data : page → slot → word` defaulting
  to `0`: the source always inserts a zero page before reading it, so
  the observable semantics agree.
* `HashSet<u32>` is modelled as a duplicate-free insertion-ordered
  `List ℕ` (`insertSet`); every fact proved about the sets is
  independent of iteration order.
* Fallible Rust paths (`Result`, `bail!`, `assert!`, `.expect`) are
  `Except String`; interpolated error-message arguments are elided.
-/

/-- Mirrors `gdbstub::target::ext::breakpoints::WatchKind`. -/
inductive WatchKind where
  | read : WatchKind
  | write : WatchKind
  | readWrite : WatchKind
deriving DecidableEq

/-- Mirrors `rrs_lib::MemAccessSize`. -/
inductive MemAccessSize where
  | byte : MemAccessSize
  | halfWord : MemAccessSize
  | word : MemAccessSize
deriving DecidableEq

/-- Mirrors `vm::ExitCode` (src/vm/mod.rs). -/
inductive ExitCode where
  | paused : ℕ → ExitCode
  | halted : ℕ → ExitCode
  | hwWatchPoint : WatchKind × ℕ → ExitCode
deriving DecidableEq

/-- `pub const GUEST_MIN_MEM: usize = 0x00000400` (src/vm/memory.rs). -/
def GUEST_MIN_MEM : ℕ := 0x00000400

/-- `pub const GUEST_MAX_MEM: usize = 0x0C000000` (src/vm/memory.rs). -/
def GUEST_MAX_MEM : ℕ := 0x0C000000

/-- `PRE_CYCLE` (src/vm/session_cycle.rs). -/
def PRE_CYCLE : ℕ := 1 + 1561 + 1 + 27 + 2

/-- `POST_CYCLE` (src/vm/session_cycle.rs). -/
def POST_CYCLE : ℕ := 2 + 2 + 2

/-- `OTHER_CONST_CYCLE` (src/vm/session_cycle.rs). -/
def OTHER_CONST_CYCLE : ℕ := 73 + 50

/-- `HashSet::insert`: insertion-ordered duplicate-free list insert. -/
def insertSet (s : List ℕ) (x : ℕ) : List ℕ :=
  if x ∈ s then s else s ++ [x]

/-- `SessionCycleCount` (src/vm/session_cycle.rs); `HashSet<u32>` fields
modelled as duplicate-free lists. -/
structure SessionCycleCount where
  numSegment : ℕ
  curSegmentCycle : ℕ
  curSegmentResident : List ℕ
  curSegmentDirty : List ℕ
  curStepRead : List ℕ
  curStepWrite : List ℕ
deriving DecidableEq

/-- `SessionCycleCount::default()`. -/
def SessionCycleCount.default : SessionCycleCount :=
  ⟨0, 0, [], [], [], []⟩

/-- `Memory` (src/vm/memory.rs).  The `session_cycle_callback`
back-reference (`Rc<RefCell<SessionCycleCount>>`, always installed by
`Simulator::new`) is modelled by embedding the accountant state in the
`cycle` field; the `is_some` guard in the source is therefore always
true here. -/
structure Memory where
  data : ℕ → ℕ → ℕ
  hwWatchpoints : List (ℕ × ℕ × WatchKind)
  watchTrigger : Option (WatchKind × ℕ)
  cycle : SessionCycleCount

/-- `SessionCycleCount::callback_read_mem`. -/
def callbackReadMem (c : SessionCycleCount) (pageIdx : ℕ) : SessionCycleCount :=
  { c with curStepRead := insertSet c.curStepRead pageIdx }

/-- `SessionCycleCount::callback_write_mem`. -/
def callbackWriteMem (c : SessionCycleCount) (pageIdx : ℕ) : SessionCycleCount :=
  { c with curStepWrite := insertSet c.curStepWrite pageIdx }

/-- The per-entry test inside `Memory::check_watchpoints`
(src/vm/memory.rs lines 28-48): kind-compatibility skips followed by
the two-case interval test, `u32` additions taken over ℕ. -/
def watchMatch (entry : ℕ × ℕ × WatchKind) (addr len : ℕ) (isWrite : Bool) : Bool :=
  if isWrite ∧ entry.2.2 = WatchKind.read then false
  else if ¬isWrite ∧ entry.2.2 = WatchKind.write then false
  else
    let watchStart := entry.1
    let watchEnd := watchStart + entry.2.1
    let actionStart := addr
    let actionEnd := addr + len
    if actionStart < watchStart ∧ actionEnd ≥ watchStart then true
    else if actionStart ≥ watchStart ∧ actionStart < watchEnd then true
    else false

/-- `Memory::check_watchpoints`: early-return when a trigger is already
latched, otherwise latch `(kind, addr)` of the first matching entry
(`List.find?` mirrors the in-order loop with early `return`). -/
def checkWatchpoints (m : Memory) (addr len : ℕ) (isWrite : Bool) : Memory :=
  if m.watchTrigger.isSome then m
  else
    match m.hwWatchpoints.find? (fun e => watchMatch e addr len isWrite) with
    | some e => { m with watchTrigger := some (e.2.2, addr) }
    | none => m

/-- The state effect of a non-privileged read of `len` bytes at `addr`:
`callback_read_mem(addr >> 10)` followed by `check_watchpoints(addr,
len, false)` — the order of src/vm/memory.rs lines 62-112.  Neither
call touches `data`, so the value extracted below is unaffected by
hoisting this effect into a helper. -/
def readTouch (m : Memory) (addr len : ℕ) : Memory :=
  checkWatchpoints { m with cycle := callbackReadMem m.cycle (addr / 1024) } addr len false

/-- Symmetric state effect of a non-privileged write
(`callback_write_mem` then `check_watchpoints(addr, len, true)`). -/
def writeTouch (m : Memory) (addr len : ℕ) : Memory :=
  checkWatchpoints { m with cycle := callbackWriteMem m.cycle (addr / 1024) } addr len true

/-- `Memory::read_mem_with_privileges` (src/vm/memory.rs lines 52-113).
Returns the value (`None` on bounds failure) and the updated memory
(cycle-accountant notification and watchpoint latch are state). -/
def readMem (m : Memory) (addr : ℕ) (size : MemAccessSize) (privileged : Bool) :
    Option ℕ × Memory :=
  if addr < GUEST_MIN_MEM ∨ addr > GUEST_MAX_MEM then (none, m)
  else
    let pageOffset := addr % 1024                    -- addr & 0x3ff
    let word := m.data (addr / 1024) (pageOffset / 4)
    match size with
    | MemAccessSize.byte =>
      (some (if pageOffset % 4 = 0 then word % 256             -- word & 0xff
             else if pageOffset % 4 = 1 then word / 256 % 256  -- (word >> 8) & 0xff
             else if pageOffset % 4 = 2 then word / 65536 % 256
             else word / 16777216 % 256),                      -- (word >> 24) & 0xff
       if privileged then m else readTouch m addr 1)
    | MemAccessSize.halfWord =>
      (some (if pageOffset % 4 = 2 then word / 65536 % 65536   -- (word >> 16) & 0xffff
             else word % 65536),                               -- word & 0xffff
       if privileged then m else readTouch m addr 2)
    | MemAccessSize.word =>
      (some word, if privileged then m else readTouch m addr 4)

/-- Store `w` into page `pageIdx`, slot `slot` (the `BTreeMap` update). -/
def Memory.setWord (m : Memory) (pageIdx slot w : ℕ) : Memory :=
  { m with data := fun p s => if p = pageIdx ∧ s = slot then w else m.data p s }

/-- `Memory::write_mem_with_privileges` (src/vm/memory.rs lines 115-183).
The read-modify-write mask arithmetic is the exact `/ % *` form of the
source masks (e.g. `(word & 0xffff00ff) | ((data & 0xff) << 8)` becomes
`word % 256 + word / 65536 * 65536 + data % 256 * 256`). -/
def writeMem (m : Memory) (addr : ℕ) (size : MemAccessSize) (storeData : ℕ)
    (privileged : Bool) : Bool × Memory :=
  if addr < GUEST_MIN_MEM ∨ addr > GUEST_MAX_MEM then (false, m)
  else
    let pageIdx := addr / 1024
    let pageOffset := addr % 1024
    let word := m.data pageIdx (pageOffset / 4)
    match size with
    | MemAccessSize.byte =>
      let newWord :=
        if pageOffset % 4 = 0 then word / 256 * 256 + storeData % 256
        else if pageOffset % 4 = 1 then
          word % 256 + word / 65536 * 65536 + storeData % 256 * 256
        else if pageOffset % 4 = 2 then
          word % 65536 + word / 16777216 * 16777216 + storeData % 256 * 65536
        else word % 16777216 + storeData % 256 * 16777216
      (true, ((if privileged then m else writeTouch m addr 1)).setWord
        pageIdx (pageOffset / 4) newWord)
    | MemAccessSize.halfWord =>
      let newWord :=
        if pageOffset % 4 = 2 then word % 65536 + storeData % 65536 * 65536
        else word / 65536 * 65536 + storeData % 65536
      (true, ((if privileged then m else writeTouch m addr 2)).setWord
        pageIdx (pageOffset / 4) newWord)
    | MemAccessSize.word =>
      (true, ((if privileged then m else writeTouch m addr 4)).setWord
        pageIdx (pageOffset / 4) storeData)

/-- A concrete all-zero memory used by closed counterexamples. -/
def memZero : Memory :=
  ⟨fun _ _ => 0, [], none, SessionCycleCount.default⟩

/-- C1 counterexample memory: no watchpoints, zero data. -/
def memC1 : Memory := memZero

/-- C2 counterexample memory: one write watchpoint `(0x1000, 4)`,
no latched trigger. -/
def memC2 : Memory :=
  ⟨fun _ _ => 0, [(0x1000, 4, WatchKind.write)], none, SessionCycleCount.default⟩

/-- The `match opcode { ... }` body of `get_opcode_cycle`
(src/vm/session_cycle.rs lines 163-199), as a function of the three
extracted instruction fields. -/
def opcodeCycleCore (opcode funct3 funct7 : ℕ) : Except String ℕ :=
  if opcode = 0b0000011 then .ok 1
  else if opcode = 0b0010011 then
    -- match funct3 { 0|1|2|3 => 1, 4|5|6|7 => 2, _ => bail }
    if funct3 = 0 ∨ funct3 = 1 ∨ funct3 = 2 ∨ funct3 = 3 then .ok 1
    else if funct3 = 4 ∨ funct3 = 5 ∨ funct3 = 6 ∨ funct3 = 7 then .ok 2
    else .error "Illegal instruction1"
  else if opcode = 0b0010111 then .ok 1
  else if opcode = 0b0100011 then .ok 1
  else if opcode = 0b0110011 then
    match funct3, funct7 with
    | 0, 0x00 => .ok 1
    | 0, 0x20 => .ok 1
    | 1, 0x00 => .ok 1
    | 2, 0x00 => .ok 1
    | 3, 0x00 => .ok 1
    | 4, 0x00 => .ok 2
    | 5, 0x00 => .ok 2
    | 5, 0x20 => .ok 2
    | 6, 0x00 => .ok 2
    | 7, 0x00 => .ok 2
    | 0, 0x01 => .ok 1
    | 1, 0x01 => .ok 1
    | 2, 0x01 => .ok 1
    | 3, 0x01 => .ok 1
    | 4, 0x01 => .ok 2
    | 5, 0x01 => .ok 2
    | 6, 0x01 => .ok 2
    | 7, 0x01 => .ok 2
    | _, _ => .error "Illegal instruction2"
  else if opcode = 0b0110111 then .ok 1
  else if opcode = 0b1100011 then .ok 1
  else if opcode = 0b1100111 then .ok 1
  else if opcode = 0b1101111 then .ok 1
  else if opcode = 0b1110011 then .ok 1
  else .error "Illegal instruction3"

/-- `get_opcode_cycle` (src/vm/session_cycle.rs lines 158-200).  Field
extraction: `opcode = insn & 0x7f = insn % 128`, `funct3 =
(insn & 0x7000) >> 12 = insn / 4096 % 8`, `funct7 =
(insn & 0xfe000000) >> 25 = insn / 33554432 % 128`. -/
def getOpcodeCycle (insn : ℕ) : Except String ℕ :=
  opcodeCycleCore (insn % 128) (insn / 4096 % 8) (insn / 33554432 % 128)

/-- The virtual Merkle-chain parent of a page index:
`(0x0D00_0000 + cur_page_idx * 32) >> 10` (src/vm/session_cycle.rs
lines 104 and 133). -/
def pageParent (i : ℕ) : ℕ :=
  (0x0D000000 + i * 32) / 1024

/-- `pageParent` iterated `k` times. -/
def pageParentIter : ℕ → ℕ → ℕ
  | 0, p => p
  | k + 1, p => pageParentIter k (pageParent p)

/-- The root page's index (`219862` in src/vm/session_cycle.rs). -/
def ROOT_PAGE_IDX : ℕ := 219862

/-- The inner chain-walk loop of `SessionCycleCount::callback_step`
(src/vm/session_cycle.rs lines 82-105 for reads, 111-134 for writes):
starting from page `i`, repeatedly add the page and its cycle cost
(`1 + 5 + (16+52)*11` for the root, `1 + 5 + (16+52)*16` otherwise)
until reaching the root or a page already in the segment set `seg` or
in the freshly collected list `acc`.  The source loop terminates
because the parent chain of every `u32` page index reaches the root in
at most 7 steps; `fuel = 64` therefore never runs out on reachable
inputs and the fuel-exhausted branch returns the accumulator
unchanged. -/
def walkChain : ℕ → List ℕ → List ℕ → ℕ → ℕ → List ℕ × ℕ
  | 0, _, acc, cost, _ => (acc, cost)
  | fuel + 1, seg, acc, cost, i =>
    if i ∈ seg ∨ i ∈ acc then (acc, cost)
    else if i = ROOT_PAGE_IDX then (acc ++ [i], cost + (1 + 5 + (16 + 52) * 11))
    else walkChain fuel seg (acc ++ [i]) (cost + (1 + 5 + (16 + 52) * 16)) (pageParent i)

/-- Fuel given to every chain walk. -/
def WALK_FUEL : ℕ := 64

/-- The per-step page accounting: walk the chain of every page in
`pages` against segment set `seg`, accumulating the new pages (the
source's `new_segment_resident` / `new_segment_dirty` vectors) and
their total cycle cost. -/
def accumulateChains (seg : List ℕ) (pages : List ℕ) : List ℕ × ℕ :=
  pages.foldl (fun acc p => walkChain WALK_FUEL seg acc.1 acc.2 p) ([], 0)

/-- `SessionCycleCount::update_cur_segment_total_cycle`
(src/vm/session_cycle.rs lines 43-60).  Returns the updated state and
the `redo` flag. -/
def updateCurSegmentTotalCycle (c : SessionCycleCount) (newStepCycle : ℕ) :
    SessionCycleCount × Bool :=
  let newSegmentTotalCycle :=
    PRE_CYCLE + POST_CYCLE + OTHER_CONST_CYCLE + c.curSegmentCycle + newStepCycle
  if newSegmentTotalCycle > 1048576 then
    ({ c with numSegment := c.numSegment + 1, curSegmentCycle := 0,
              curSegmentResident := [], curSegmentDirty := [] }, true)
  else
    ({ c with curSegmentCycle := c.curSegmentCycle + newStepCycle }, false)

/-- One iteration of the `loop` in `SessionCycleCount::callback_step`
(src/vm/session_cycle.rs lines 78-154): account the pending step reads
and writes, try to charge the segment, and on success merge the new
pages and clear the per-step scratch sets. -/
def callbackStepOnce (c : SessionCycleCount) (opcodeCycle extraCycle : ℕ) :
    SessionCycleCount × Bool :=
  let readAcc := accumulateChains c.curSegmentResident c.curStepRead
  let writeAcc := accumulateChains c.curSegmentDirty c.curStepWrite
  let curStepTotalCycle := opcodeCycle + extraCycle + readAcc.2 + writeAcc.2
  let res := updateCurSegmentTotalCycle c curStepTotalCycle
  if res.2 then (res.1, true)
  else
    ({ res.1 with
        curSegmentResident := readAcc.1.foldl insertSet res.1.curSegmentResident,
        curSegmentDirty := writeAcc.1.foldl insertSet res.1.curSegmentDirty,
        curStepRead := [], curStepWrite := [] }, false)

/-- `SessionCycleCount::callback_step`.  The source loops until `redo`
is false; after one rollover the segment state (`cur_segment_cycle = 0`,
empty resident/dirty sets) is the same on every further iteration, so
either the second attempt commits or the source loops forever — the
latter is modelled as an error. -/
def callbackStep (c : SessionCycleCount) (opcodeCycle extraCycle : ℕ) :
    Except String SessionCycleCount :=
  match callbackStepOnce c opcodeCycle extraCycle with
  | (c1, false) => .ok c1
  | (c1, true) =>
    match callbackStepOnce c1 opcodeCycle extraCycle with
    | (c2, false) => .ok c2
    | (_, true) => .error "segment rollover never fits"

/-- `SessionCycleCount::get_session_cycle` (src/vm/session_cycle.rs
lines 62-67). -/
def getSessionCycle (c : SessionCycleCount) : ℕ :=
  c.numSegment * 1048576 +
    (PRE_CYCLE + POST_CYCLE + OTHER_CONST_CYCLE + c.curSegmentCycle)

instance {ε α : Type} [DecidableEq ε] [DecidableEq α] :
    DecidableEq (Except ε α) := fun a b =>
  match a, b with
  | .ok x, .ok y => decidable_of_iff (x = y) (by simp)
  | .error x, .error y => decidable_of_iff (x = y) (by simp)
  | .ok _, .error _ => .isFalse (by simp)
  | .error _, .ok _ => .isFalse (by simp)

/-- The accountant state used by the C7 counterexample: no segment
history, exactly one page (page 1) recorded as read this step. -/
def cycC7 : SessionCycleCount := ⟨0, 0, [], [], [1], []⟩

/-- The accountant state after the C7 counterexample step: the whole
Merkle chain of page 1 became resident and the step cost
`1 + 4*1094 + 754 = 5131` cycles. -/
def cycC7out : SessionCycleCount :=
  ⟨0, 5131, [1, 212992, 219648, 219856, 219862], [], [], []⟩

/-- Register-file indices used by the syscall layer
(src/vm/mod.rs `reg_abi`). -/
def REG_T0 : ℕ := 5

/-- `REG_A0` (src/vm/mod.rs). -/
def REG_A0 : ℕ := 10

/-- `REG_A1` (src/vm/mod.rs). -/
def REG_A1 : ℕ := 11

/-- `REG_A2` (src/vm/mod.rs). -/
def REG_A2 : ℕ := 12

/-- `REG_A3` (src/vm/mod.rs). -/
def REG_A3 : ℕ := 13

/-- `REG_A4` (src/vm/mod.rs). -/
def REG_A4 : ℕ := 14

/-- `REG_A5` (src/vm/mod.rs). -/
def REG_A5 : ℕ := 15

/-- `Simulator` (src/vm/simulator.rs).  `HartState` is inlined as
`registers`/`pc`; the host-side collaborators are modelled as data:
`env`, `args` and the I/O cursors hold UTF-8 byte lists; `randomWords`
is the stream `getrandom` would produce (SYS_RANDOM is host
randomness, a free input of the model); `shaCompress` is the external
`sha2::compress256` one-block compression function (state, 16-word
block) ↦ state, an external crate the spec treats as a dependency. -/
structure Sim where
  mem : Memory
  registers : ℕ → ℕ
  pc : ℕ
  env : List (List ℕ × List ℕ)
  stdinData : List ℕ
  stdinPos : ℕ
  stdoutData : List ℕ
  stderrData : List ℕ
  journalData : List ℕ
  args : List (List ℕ)
  randomWords : ℕ → ℕ
  shaCompress : List ℕ → List ℕ → List ℕ

/-- Register write (`hart_state.registers[i] = v`). -/
def Sim.setReg (st : Sim) (i v : ℕ) : Sim :=
  { st with registers := fun j => if j = i then v else st.registers j }

/-- The UTF-8 bytes of an all-ASCII string (used for the syscall-name
table; every name in src/vm/syscall.rs is ASCII, so UTF-8 bytes are
exactly the character codes). -/
def asciiBytes (s : String) : List ℕ :=
  s.data.map Char.toNat

/-- Byte-by-byte guest read loop: `for i in 0..len { read_mem(ptr + i,
Byte) }`, failing when a read returns `None` (the shared pattern of
SYS_PANIC / SYS_GETENV / SYS_WRITE / SYS_LOG and the SHA state load;
the per-caller error message texts are collapsed into one). -/
def readGuestBytes (m : Memory) (ptr : ℕ) : ℕ → Except String (List ℕ × Memory)
  | 0 => .ok ([], m)
  | n + 1 =>
    match readMem m ptr MemAccessSize.byte false with
    | (none, _) => .error "guest memory cannot be read"
    | (some b, m') =>
      match readGuestBytes m' (ptr + 1) n with
      | .error e => .error e
      | .ok (rest, m'') => .ok (b :: rest, m'')

/-- Byte-by-byte guest write loop (`write_mem(ptr + i, Byte, data[i])`),
failing when a write returns `false`. -/
def writeGuestBytes (m : Memory) (ptr : ℕ) : List ℕ → Except String Memory
  | [] => .ok m
  | b :: rest =>
    match writeMem m ptr MemAccessSize.byte b false with
    | (false, _) => .error "cannot write to guest memory"
    | (true, m') => writeGuestBytes m' (ptr + 1) rest

/-- Word-stride guest read loop: `read_mem(ptr + i * 4, Word)` for
`i = 0, 1, …` (the SHA block and BigInt operand loads). -/
def readGuestWords (m : Memory) (ptr : ℕ) : ℕ → Except String (List ℕ × Memory)
  | 0 => .ok ([], m)
  | n + 1 =>
    match readMem m ptr MemAccessSize.word false with
    | (none, _) => .error "guest memory cannot be read"
    | (some w, m') =>
      match readGuestWords m' (ptr + 4) n with
      | .error e => .error e
      | .ok (rest, m'') => .ok (w :: rest, m'')

/-- Little-endian byte serialization of a `u32` word list
(`bytemuck::cast_slice::<u32, u8>`). -/
def wordsToBytes (ws : List ℕ) : List ℕ :=
  ws.foldr (fun w acc =>
    w % 256 :: w / 256 % 256 :: w / 65536 % 256 :: w / 16777216 % 256 :: acc) []

/-- Little-endian word assembly of a byte list, four bytes per `u32`
(`bytemuck::cast_slice::<u8, u32>`); a trailing partial group is
zero-padded (never reached by the callers, whose lengths are word
multiples). -/
def bytesToWordsLE : List ℕ → List ℕ
  | [] => []
  | b0 :: b1 :: b2 :: b3 :: rest =>
    (b0 % 256 + b1 % 256 * 256 + b2 % 256 * 65536 + b3 % 256 * 16777216) ::
      bytesToWordsLE rest
  | l => [(l.getD 0 0) % 256 + (l.getD 1 0) % 256 * 256 + (l.getD 2 0) % 256 * 65536]

/-- Overlay `bytes` onto the first `bytes.length` byte positions of the
word buffer `words` (`to_guest_u8s[0..n].clone_from_slice(...)`):
serialize, splice, reassemble. -/
def overlayBytes (words : List ℕ) (bytes : List ℕ) : List ℕ :=
  bytesToWordsLE (bytes ++ (wordsToBytes words).drop bytes.length)

/-- `u32::from_le_bytes` of up to four bytes, zero-padded (the
`to_guest_end` word of SYS_READ). -/
def le32pad (l : List ℕ) : ℕ :=
  l.getD 0 0 % 256 + l.getD 1 0 % 256 * 256 + l.getD 2 0 % 256 * 65536 +
    l.getD 3 0 % 256 * 16777216

/-- Byte-swap of a 32-bit word (`u32::to_be` / `u32::from_be` on a
little-endian host). -/
def byteSwap32 (w : ℕ) : ℕ :=
  w % 256 * 16777216 + w / 256 % 256 * 65536 + w / 65536 % 256 * 256 +
    w / 16777216 % 256

/-- `handle_syscall` (src/vm/syscall.rs).  The name is matched against
the thirteen known syscall strings in source order; **any other name
falls through to the final `Ok(None)`** (src/vm/syscall.rs line 243).
Returns the exit code, the (possibly rewritten) `to_guest` buffer and
the updated simulator. -/
def handleSyscall (name : List ℕ) (toGuest : List ℕ) (st : Sim) :
    Except String (Option ExitCode × List ℕ × Sim) :=
  if name = asciiBytes "risc0_zkvm_platform::syscall::nr::SYS_RANDOM" then
    -- getrandom fills the buffer; the model draws from the randomWords tape
    let filled := (List.range toGuest.length).map fun i => st.randomWords i % 4294967296
    .ok (none, filled, (st.setReg REG_A0 0).setReg REG_A1 0)
  else if name = asciiBytes "risc0_zkvm_platform::syscall::nr::SYS_CYCLE_COUNT" then
    .ok (none, toGuest,
      ((st.setReg REG_A0 (getSessionCycle st.mem.cycle % 4294967296)).setReg REG_A1 0))
  else if name = asciiBytes "risc0_zkvm_platform::syscall::nr::SYS_PANIC" then
    match readGuestBytes st.mem (st.registers REG_A3) (st.registers REG_A4) with
    | .error e => .error e
    | .ok (_, _) => .error "Guest panicked"
  else if name = asciiBytes "risc0_zkvm_platform::syscall::nr::SYS_GETENV" then
    match readGuestBytes st.mem (st.registers REG_A3) (st.registers REG_A4) with
    | .error e => .error e
    | .ok (nameBytes, m1) =>
      let st1 := { st with mem := m1 }
      match st1.env.lookup nameBytes with
      | none => .ok (none, toGuest, (st1.setReg REG_A0 4294967295).setReg REG_A1 0)
      | some val =>
        let nbytes := min (toGuest.length * 4) val.length
        .ok (none, overlayBytes toGuest (val.take nbytes),
          (st1.setReg REG_A0 (val.length % 4294967296)).setReg REG_A1 0)
  else if name = asciiBytes "risc0_zkvm_platform::syscall::nr::SYS_READ" then
    let fd := st.registers REG_A3
    let nbytes := st.registers REG_A4
    if ¬(nbytes ≥ toGuest.length * 4) then
      .error "Word-aligned read buffer must be fully filled"     -- assert!
    else if fd ≠ 0 then .error "Bad read file descriptor"
    else
      let avail := st.stdinData.length - st.stdinPos
      let nreadMain := min (toGuest.length * 4) avail
      if nreadMain ≠ toGuest.length * 4 then
        .error "Guest requested more data than was available"    -- assert_eq!
      else
        let unalignedEnd := nbytes - nreadMain
        if ¬(unalignedEnd ≤ 4) then .error "unaligned_end must be <= 4"
        else
          let mainBytes := (st.stdinData.drop st.stdinPos).take nreadMain
          let nreadEnd := min unalignedEnd (avail - nreadMain)
          let endBytes := (st.stdinData.drop (st.stdinPos + nreadMain)).take nreadEnd
          .ok (none, bytesToWordsLE mainBytes,
            (({ st with stdinPos := st.stdinPos + nreadMain + nreadEnd
              }.setReg REG_A0 (nreadMain + nreadEnd)).setReg REG_A1 (le32pad endBytes)))
  else if name = asciiBytes "risc0_zkvm_platform::syscall::nr::SYS_READ_AVAIL" then
    if st.registers REG_A3 ≠ 0 then .error "Bad read file descriptor"
    else .ok (none, toGuest,
      (st.setReg REG_A0 (st.stdinData.length - st.stdinPos)).setReg REG_A1 0)
  else if name = asciiBytes "risc0_zkvm_platform::syscall::nr::SYS_WRITE" then
    match readGuestBytes st.mem (st.registers REG_A4) (st.registers REG_A5) with
    | .error e => .error e
    | .ok (bytes, m1) =>
      let st1 := { st with mem := m1 }
      let fd := st.registers REG_A3
      if fd = 1 then
        .ok (none, toGuest, ({ st1 with stdoutData := st1.stdoutData ++ bytes
          }.setReg REG_A0 0).setReg REG_A1 0)
      else if fd = 2 then
        .ok (none, toGuest, ({ st1 with stderrData := st1.stderrData ++ bytes
          }.setReg REG_A0 0).setReg REG_A1 0)
      else if fd = 3 then
        .ok (none, toGuest, ({ st1 with journalData := st1.journalData ++ bytes
          }.setReg REG_A0 0).setReg REG_A1 0)
      else .error "cannot read an unsupported output channel."
  else if name = asciiBytes "risc0_zkvm_platform::syscall::nr::SYS_LOG" then
    match readGuestBytes st.mem (st.registers REG_A3) (st.registers REG_A4) with
    | .error e => .error e
    | .ok (bytes, m1) =>
      let st1 := { st with mem := m1, stdoutData := st.stdoutData ++ bytes }
      .ok (none, toGuest, (st1.setReg REG_A0 0).setReg REG_A1 0)
  else if name = asciiBytes "risc0_zkvm_platform::syscall::nr::SYS_VERIFY" ∨
      name = asciiBytes "risc0_zkvm_platform::syscall::nr::SYS_VERIFY_INTEGRITY" then
    .ok (none, toGuest, (st.setReg REG_A0 0).setReg REG_A1 0)
  else if name = asciiBytes "risc0_zkvm_platform::syscall::nr::SYS_ARGC" then
    .ok (none, toGuest, st.setReg REG_A0 (st.args.length % 4294967296))
  else if name = asciiBytes "risc0_zkvm_platform::syscall::nr::SYS_ARGS" then
    match st.args.get? (st.registers REG_A3) with
    | none => .error "guest requested an argv index out of range"
    | some val =>
      let nbytes := min (toGuest.length * 4) val.length
      .ok (none, overlayBytes toGuest (val.take nbytes),
        (st.setReg REG_A0 (val.length % 4294967296)).setReg REG_A1 0)
  else
    -- the fall-through of handle_syscall: unknown names silently succeed
    .ok (none, toGuest, st)

/-- The result quadruple of an ECALL handler: `(new_pc, exit_code,
extra_cycle)` of the source plus the updated simulator state. -/
def EcallResult : Type := ℕ × Option ExitCode × ℕ × Sim

/-- `Simulator::ecall_halt` (src/vm/simulator.rs lines 174-188):
`halt_type = A0 & 0xff`, `user_exit = (A0 >> 8) & 0xff`; PC is not
advanced and the extra cycle cost is 0. -/
def ecallHalt (st : Sim) : Except String EcallResult :=
  if st.registers REG_A0 % 256 = 0 then
    .ok (st.pc, some (ExitCode.halted (st.registers REG_A0 / 256 % 256)), 0, st)
  else if st.registers REG_A0 % 256 = 1 then
    .ok (st.pc, some (ExitCode.paused (st.registers REG_A0 / 256 % 256)), 0, st)
  else .error "Illegal halt type"

/-- `Simulator::ecall_input` (src/vm/simulator.rs lines 190-192). -/
def ecallInput (st : Sim) : Except String EcallResult :=
  .ok (st.pc + 4, none, 0, st)

/-- The zero-terminated name scan of `Simulator::ecall_software`
(src/vm/simulator.rs lines 219-237): read bytes at `name_ptr`,
`name_ptr + 1`, … until a zero byte; a failed read is a fatal error.
The source loop is bounded by the read failing past `GUEST_MAX_MEM`;
`fuel` only needs to cover the distance to the first zero byte (or to
the window's end), and callers pass a sufficient amount. -/
def readCString (m : Memory) (addr : ℕ) : ℕ → Except String (List ℕ × Memory)
  | 0 => .error "name scan out of fuel"
  | fuel + 1 =>
    match readMem m addr MemAccessSize.byte false with
    | (none, _) => .error "name_ptr of a SOFTWARE syscall cannot be read"
    | (some b, m') =>
      if b = 0 then .ok ([], m')
      else
        match readCString m' (addr + 1) fuel with
        | .error e => .error e
        | .ok (rest, m'') => .ok (b :: rest, m'')

/-- `Simulator::ecall_software` (src/vm/simulator.rs lines 194-261):
validate `to_guest_ptr` (in-window or zero), scan the syscall name,
allocate a zeroed `to_guest` buffer of `A1` words, dispatch to
`handle_syscall`, and copy the buffer back byte-by-byte when
`to_guest_ptr != 0`.  `chunks = align_up(to_guest_words, 4)`; the
extra cycle cost is `1 + chunks + 1`.  When the named syscall returns
an exit code the source returns `(pc, None, cycles)` — the exit code
is discarded and PC is not advanced. -/
def ecallSoftware (fuel : ℕ) (st : Sim) : Except String EcallResult :=
  let toGuestPtr := st.registers REG_A0
  if (toGuestPtr < GUEST_MIN_MEM ∨ toGuestPtr > GUEST_MAX_MEM) ∧ toGuestPtr ≠ 0 then
    .error "to_guest_ptr of a SOFTWARE syscall is invalid"
  else
    let toGuestWords := st.registers REG_A1
    let namePtr := st.registers REG_A2
    let chunks := (toGuestWords + 4 - 1) / 4 * 4    -- align_up(to_guest_words, 4)
    match readCString st.mem namePtr fuel with
    | .error e => .error e
    | .ok (nameBytes, m1) =>
      let st1 := { st with mem := m1 }
      let toGuest := List.replicate toGuestWords 0
      match handleSyscall nameBytes toGuest st1 with
      | .error e => .error e
      | .ok (exitCode, toGuest', st2) =>
        if exitCode.isSome then .ok (st2.pc, none, 1 + chunks + 1, st2)
        else if toGuestPtr ≠ 0 then
          match writeGuestBytes st2.mem toGuestPtr (wordsToBytes toGuest') with
          | .error _ => .error "cannot write the final hash for SHA."
          | .ok m2 => .ok (st2.pc + 4, none, 1 + chunks + 1, { st2 with mem := m2 })
        else .ok (st2.pc + 4, none, 1 + chunks + 1, st2)

/-- The per-block loop of `Simulator::ecall_sha` (src/vm/simulator.rs
lines 285-308): for each of `count` iterations read eight words at
`block1_ptr` and eight at `block2_ptr`, compress, and advance both
pointers by 64. -/
def shaRounds (compress : List ℕ → List ℕ → List ℕ) (m : Memory)
    (state : List ℕ) (block1Ptr block2Ptr : ℕ) :
    ℕ → Except String (List ℕ × Memory)
  | 0 => .ok (state, m)
  | count + 1 =>
    match readGuestWords m block1Ptr 8 with
    | .error _ => .error "cannot read the input for SHA."
    | .ok (w1, m1) =>
      match readGuestWords m1 block2Ptr 8 with
      | .error _ => .error "cannot read the input for SHA."
      | .ok (w2, m2) =>
        shaRounds compress m2 (compress state (w1 ++ w2))
          (block1Ptr + 64) (block2Ptr + 64) count

/-- `Simulator::ecall_sha` (src/vm/simulator.rs lines 263-327): load
the 32-byte state little-endian and byte-swap each word (`to_be`),
run `count` compressions, swap back, store 32 bytes; extra cycles
`73 * count`. -/
def ecallSha (st : Sim) : Except String EcallResult :=
  let outStatePtr := st.registers REG_A0
  let inStatePtr := st.registers REG_A1
  let block1Ptr := st.registers REG_A2
  let block2Ptr := st.registers REG_A3
  let count := st.registers REG_A4
  match readGuestBytes st.mem inStatePtr 32 with
  | .error _ => .error "cannot read the previous hash for SHA."
  | .ok (inBytes, m1) =>
    let state := (bytesToWordsLE inBytes).map byteSwap32
    match shaRounds st.shaCompress m1 state block1Ptr block2Ptr count with
    | .error e => .error e
    | .ok (state', m2) =>
      let outBytes := wordsToBytes (state'.map byteSwap32)
      match writeGuestBytes m2 outStatePtr outBytes with
      | .error _ => .error "cannot write the final hash for SHA."
      | .ok m3 => .ok (st.pc + 4, none, 73 * count, { st with mem := m3 })

/-- The 256-bit little-endian value of eight loaded words
(`U256::from_le_bytes` after the identity `to_le`). -/
def wordsToNatLE (ws : List ℕ) : ℕ :=
  ws.foldr (fun w acc => w % 4294967296 + acc * 4294967296) 0

/-- The result store of `Simulator::ecall_bigint` (src/vm/simulator.rs
lines 369-381): for each of the eight result words the source calls
`write_mem(z_ptr + i * 4, MemAccessSize::Byte, word.to_le())` — a
**byte**-sized write of the full 32-bit word, which stores only
`word & 0xff`. -/
def bigintStoreWords (m : Memory) (ptr : ℕ) : List ℕ → Except String Memory
  | [] => .ok m
  | w :: rest =>
    match writeMem m ptr MemAccessSize.byte w false with
    | (false, _) => .error "cannot write the final result for BigInt."
    | (true, m') => bigintStoreWords m' (ptr + 4) rest

/-- The eight little-endian `u32` words of a 256-bit value. -/
def natToWordsLE (z : ℕ) : List ℕ :=
  [z % 4294967296, z / 2 ^ 32 % 4294967296, z / 2 ^ 64 % 4294967296,
   z / 2 ^ 96 % 4294967296, z / 2 ^ 128 % 4294967296, z / 2 ^ 160 % 4294967296,
   z / 2 ^ 192 % 4294967296, z / 2 ^ 224 % 4294967296]

/-- `Simulator::ecall_bigint` (src/vm/simulator.rs lines 329-384):
`op` must be 0; load 256-bit little-endian `x`, `y`, `n`; when `n = 0`
the product must fit in 256 bits (`checked_mul`, whose failure —
a panic via `expect` in the source — is modelled as a fatal error),
otherwise `z = (x * y) mod n` through the full 512-bit product
(`mul_wide`/`concat`/`rem`, exact over ℕ since `x*y < 2^512` and the
remainder is `< n < 2^256`); the result words are stored through
byte-sized writes and the extra cycle cost is 9. -/
def ecallBigint (st : Sim) : Except String EcallResult :=
  let zPtr := st.registers REG_A0
  let op := st.registers REG_A1
  let xPtr := st.registers REG_A2
  let yPtr := st.registers REG_A3
  let nPtr := st.registers REG_A4
  if op ≠ 0 then .error "ecall_bigint preflight: op must be set to 0"
  else
    match readGuestWords st.mem xPtr 8 with
    | .error _ => .error "cannot read the operand for BigInt."
    | .ok (xw, m1) =>
      match readGuestWords m1 yPtr 8 with
      | .error _ => .error "cannot read the operand for BigInt."
      | .ok (yw, m2) =>
        match readGuestWords m2 nPtr 8 with
        | .error _ => .error "cannot read the operand for BigInt."
        | .ok (nw, m3) =>
          let x := wordsToNatLE xw
          let y := wordsToNatLE yw
          let n := wordsToNatLE nw
          if n = 0 then
            if x * y < 2 ^ 256 then
              match bigintStoreWords m3 zPtr (natToWordsLE (x * y)) with
              | .error e => .error e
              | .ok m4 => .ok (st.pc + 4, none, 9, { st with mem := m4 })
            else .error "BigInt syscall requires non-overflowing multiplication when n = 0"
          else
            match bigintStoreWords m3 zPtr (natToWordsLE (x * y % n)) with
            | .error e => .error e
            | .ok m4 => .ok (st.pc + 4, none, 9, { st with mem := m4 })

/-- `Simulator::ecall` (src/vm/simulator.rs lines 163-172): dispatch on
`registers[T0]` over the `vm::ecall` constants
(HALT=0, INPUT=1, SOFTWARE=2, SHA=3, BIGINT=4); anything else is the
fatal `bail!("Unknown ecall …")`. -/
def Simulator.ecall (fuel : ℕ) (st : Sim) : Except String EcallResult :=
  match st.registers REG_T0 with
  | 0 => ecallHalt st
  | 1 => ecallInput st
  | 2 => ecallSoftware fuel st
  | 3 => ecallSha st
  | 4 => ecallBigint st
  | _ => .error "Unknown ecall"

/-- `Simulator::step` (src/vm/simulator.rs lines 100-161).  The
instruction fetch is a **non-privileged word read at PC** (so it is
counted by the accountant and watch-checked); only afterwards is
`watch_trigger` cleared (line 112).  ECALL-shaped instructions
(`opcode = 0b1110011`, `funct3 = 0`, `rs2 ∈ {0,1}`, `funct7 = 0`)
dispatch to the syscall layer; everything else runs through the
external `rrs_lib::InstructionExecutor`, abstracted here as the
`rrsExec` parameter (an external crate, a dependency of the spec).
After the accountant callback, a latched `watch_trigger` turns a
`None` outcome into `HwWatchPoint`. -/
def simStep (rrsExec : Sim → Except String Sim) (fuel : ℕ) (st : Sim) :
    Except String (Option ExitCode × Sim) :=
  match readMem st.mem st.pc MemAccessSize.word false with
  | (none, _) => .error "cannot read the next instruction."
  | (some insn, m1) =>
    let opcode := insn % 128                 -- insn & 0x7f
    let rs2 := insn / 1048576 % 32           -- (insn & 0x01f00000) >> 20
    let funct3 := insn / 4096 % 8            -- (insn & 0x00007000) >> 12
    let funct7 := insn / 33554432 % 128      -- (insn & 0xfe000000) >> 25
    let st := { st with mem := { m1 with watchTrigger := none } }
    match getOpcodeCycle insn with
    | .error e => .error e
    | .ok opcodeCycle =>
      if opcode = 115 ∧ funct3 = 0 ∧ (rs2 = 0 ∨ rs2 = 1) ∧ funct7 = 0 then
        match Simulator.ecall fuel st with
        | .error e => .error e
        | .ok (newPc, exitCode, extraCycle, st2) =>
          let st3 := { st2 with pc := newPc }
          match callbackStep st3.mem.cycle opcodeCycle extraCycle with
          | .error e => .error e
          | .ok cyc' =>
            let st4 := { st3 with mem := { st3.mem with cycle := cyc' } }
            match exitCode, st4.mem.watchTrigger with
            | none, some wt => .ok (some (ExitCode.hwWatchPoint wt), st4)
            | ec, _ => .ok (ec, st4)
      else
        match rrsExec st with
        | .error _ => .error "execution encounters an exception"
        | .ok st2 =>
          match callbackStep st2.mem.cycle opcodeCycle 0 with
          | .error e => .error e
          | .ok cyc' =>
            let st3 := { st2 with mem := { st2.mem with cycle := cyc' } }
            match st3.mem.watchTrigger with
            | some wt => .ok (some (ExitCode.hwWatchPoint wt), st3)
            | none => .ok (none, st3)

/-- A placeholder for the external RV32IM executor in closed
counterexamples (never invoked on their ECALL-shaped instructions). -/
def rrsExecUnused : Sim → Except String Sim := fun _ => .error "unreachable"

/-- A baseline simulator state: zeroed memory and registers, PC at
`0x1000`, empty host channels. -/
def simBase : Sim :=
  ⟨memZero, fun _ => 0, 0x1000, [], [], 0, [], [], [], [], fun _ => 0, fun s _ => s⟩

/-- Guest data image holding the ECALL instruction word `0x73` at
address `0x1000` (page 4, slot 0). -/
def dataEcallAt0x1000 : ℕ → ℕ → ℕ := fun p s => if p = 4 ∧ s = 0 then 0x73 else 0

/-- The state `Simulator::step` hands back after an ECALL: the handler
result state with the new PC and the committed accountant state. -/
def stepCommit (st2 : Sim) (newPc : ℕ) (cyc' : SessionCycleCount) : Sim :=
  { st2 with pc := newPc, mem := { st2.mem with cycle := cyc' } }

/-- Memory holding only the ECALL instruction at `0x1000`. -/
def memEcall : Memory := ⟨dataEcallAt0x1000, [], none, SessionCycleCount.default⟩

/-- HALT scenario: ECALL at PC `0x1000` with `T0 = 0` and
`A0 = 0x2A00` (halt type 0, user exit code `0x2A`). -/
def stC8 : Sim :=
  { simBase with mem := memEcall, registers := fun i => if i = 10 then 0x2A00 else 0 }

/-- Memory with the ECALL word at `0x1000` and a 4-byte **read**
watchpoint covering `0x1000` — the instruction fetch is the only
access that can match it. -/
def memC5 : Memory :=
  ⟨dataEcallAt0x1000, [(0x1000, 4, WatchKind.read)], none, SessionCycleCount.default⟩

/-- INPUT-ECALL scenario under a read watchpoint on PC. -/
def stC5 : Sim :=
  { simBase with mem := memC5, registers := fun i => if i = 5 then 1 else 0 }

/-- The twelve syscall-name byte strings tested by `handle_syscall`,
in source order. -/
def knownSyscallNames : List (List ℕ) :=
  [asciiBytes "risc0_zkvm_platform::syscall::nr::SYS_RANDOM",
   asciiBytes "risc0_zkvm_platform::syscall::nr::SYS_CYCLE_COUNT",
   asciiBytes "risc0_zkvm_platform::syscall::nr::SYS_PANIC",
   asciiBytes "risc0_zkvm_platform::syscall::nr::SYS_GETENV",
   asciiBytes "risc0_zkvm_platform::syscall::nr::SYS_READ",
   asciiBytes "risc0_zkvm_platform::syscall::nr::SYS_READ_AVAIL",
   asciiBytes "risc0_zkvm_platform::syscall::nr::SYS_WRITE",
   asciiBytes "risc0_zkvm_platform::syscall::nr::SYS_LOG",
   asciiBytes "risc0_zkvm_platform::syscall::nr::SYS_VERIFY",
   asciiBytes "risc0_zkvm_platform::syscall::nr::SYS_VERIFY_INTEGRITY",
   asciiBytes "risc0_zkvm_platform::syscall::nr::SYS_ARGC",
   asciiBytes "risc0_zkvm_platform::syscall::nr::SYS_ARGS"]

/-- Guest image for the C4 counterexample: ECALL at `0x1000`, and the
one-character name string `"A"` (byte 65, then the 0 terminator) at
`0x500` (page 1, slot 64). -/
def dataC4 : ℕ → ℕ → ℕ := fun p s =>
  if p = 4 ∧ s = 0 then 0x73 else if p = 1 ∧ s = 64 then 65 else 0

/-- SOFTWARE-ECALL scenario: `T0 = 2`, `to_guest_ptr = A0 = 0`
(valid), `to_guest_words = A1 = 0`, `name_ptr = A2 = 0x500` pointing
at the unknown name `"A"`. -/
def memC4 : Memory := ⟨dataC4, [], none, SessionCycleCount.default⟩

/-- Register file of the C4 scenario. -/
def regsC4 : ℕ → ℕ := fun i => if i = 5 then 2 else if i = 12 then 0x500 else 0

/-- The C4 scenario state. -/
def stC4 : Sim := { simBase with mem := memC4, registers := regsC4 }

/-- Guest image for the BIGINT scenario: `x = 256` at `0x400` (page 1,
slot 0), `y = 1` at `0x420` (slot 8), `n = 0` at `0x440`, and the
result area at `0x800` (page 2) pre-seeded with the sentinel byte
`0xEE` at address `0x801` (word `0x0000EE00` in slot 0). -/
def dataC9 : ℕ → ℕ → ℕ := fun p s =>
  if p = 1 ∧ s = 0 then 256 else if p = 1 ∧ s = 8 then 1
  else if p = 2 ∧ s = 0 then 0xEE00 else 0

/-- Memory of the BIGINT scenario. -/
def memC9 : Memory := ⟨dataC9, [], none, SessionCycleCount.default⟩

/-- Registers of the BIGINT scenario: `A0 = z_ptr = 0x800`,
`A1 = op = 0`, `A2 = x_ptr = 0x400`, `A3 = y_ptr = 0x420`,
`A4 = n_ptr = 0x440`. -/
def regsC9 : ℕ → ℕ := fun i =>
  if i = 10 then 0x800 else if i = 12 then 0x400
  else if i = 13 then 0x420 else if i = 14 then 0x440 else 0

/-- The BIGINT scenario state. -/
def stC9 : Sim := { simBase with mem := memC9, registers := regsC9 }

/-- The byte loop of `Debugger::read_addrs` (src/debug/debugger.rs
lines 294-302): `count` successive **non-privileged** byte reads
through `read_mem` starting at `addr` (the source's
`(start_addr..end_addr).zip(data.iter_mut())` iteration), a failed
read turning into the non-fatal `TargetError` (modelled as
`Except Unit`).  Memory side effects up to the failure point are
kept, as they are on the shared memory in the source. -/
def debuggerReadLoop (m : Memory) (addr : ℕ) : ℕ → Except Unit (List ℕ) × Memory
  | 0 => (.ok [], m)
  | n + 1 =>
    match readMem m addr MemAccessSize.byte false with
    | (none, m') => (.error (), m')
    | (some b, m') =>
      match debuggerReadLoop m' (addr + 1) n with
      | (.error e, m'') => (.error e, m'')
      | (.ok rest, m'') => (.ok (b :: rest), m'')

/-- `Debugger::read_addrs` (src/debug/debugger.rs lines 283-305):
reject a start address outside `GUEST_MIN_MEM..GUEST_MAX_MEM`
(half-open), clamp the end to `GUEST_MAX_MEM`, then read byte-by-byte
through the **non-privileged** `read_mem`.  `len` is `data.len()`;
the returned list is the filled prefix (its length is the returned
count `end_addr - start_addr`). -/
def debuggerReadAddrs (m : Memory) (startAddr len : ℕ) :
    Except Unit (List ℕ) × Memory :=
  if ¬(GUEST_MIN_MEM ≤ startAddr ∧ startAddr < GUEST_MAX_MEM) then (.error (), m)
  else
    let endAddr := min (startAddr + len) GUEST_MAX_MEM
    debuggerReadLoop m startAddr (endAddr - startAddr)

/-- `Debugger::write_addrs` (src/debug/debugger.rs lines 307-323):
write `data` byte-by-byte through the **non-privileged** `write_mem`
starting at `start_addr`, returning the non-fatal error at the first
failing write; bytes already written stay written. -/
def debuggerWriteAddrs (m : Memory) (startAddr : ℕ) :
    List ℕ → Except Unit Unit × Memory
  | [] => (.ok (), m)
  | b :: rest =>
    match writeMem m startAddr MemAccessSize.byte b false with
    | (false, m') => (.error (), m')
    | (true, m') => debuggerWriteAddrs m' (startAddr + 1) rest

/-- Memory of the C6 counterexample: a 1-byte read watchpoint at
`0x1000`, empty trigger, fresh accountant. -/
def memC6 : Memory :=
  ⟨fun _ _ => 0, [(0x1000, 1, WatchKind.read)], none, SessionCycleCount.default⟩

/-- Byte length of an access size. -/
def sizeLen : MemAccessSize → ℕ
  | MemAccessSize.byte => 1
  | MemAccessSize.halfWord => 2
  | MemAccessSize.word => 4

/-- Memory for the C10 counterexample. -/
def memC10 : Memory := memZero

/-- **C1 counterexample.**  The claim says every access at address
`0x0C000000` fails, the window being half-open.  The source bound is
`addr > GUEST_MAX_MEM` (strict), so a read and a write at
`0x0C000000` itself both succeed. -/
theorem C1_counterexample :
    (readMem memC1 0x0C000000 MemAccessSize.byte false).1 = some 0 ∧
    (writeMem memC1 0x0C000000 MemAccessSize.halfWord 0xBEEF false).1 = true := by
  constructor <;> rfl

/-- **C1 (amended).**  For every address, size and privilege flag,
`read_mem_with_privileges` returns `None` / `write_mem_with_privileges`
returns `false` iff `addr < 0x00000400` or `addr > 0x0C000000`: the
guest window is closed at the top, an access at `0x0C000000` itself
succeeds, and every access at an address in `[0x400, 0x0C000000]`
succeeds. -/
theorem C1_read_write_bounds (m : Memory) (addr : ℕ) (size : MemAccessSize)
    (priv : Bool) (storeData : ℕ) :
    ((readMem m addr size priv).1 = none ↔
      (addr < 0x00000400 ∨ 0x0C000000 < addr)) ∧
    ((writeMem m addr size storeData priv).1 = false ↔
      (addr < 0x00000400 ∨ 0x0C000000 < addr)) := by
  rcases size <;>
    simp only [readMem, writeMem, GUEST_MIN_MEM, GUEST_MAX_MEM] <;>
    constructor <;> split <;> simp_all

/-- **C2 counterexample.**  The claim says a watch entry matches iff
`[addr, addr+len)` and `[watch_start, watch_start+watch_len)` have a
non-empty intersection.  A 4-byte write at `0xFFC` against the watch
entry `(0x1000, 4, write)` has `action_end = watch_start`, so the
intervals `[0xFFC, 0x1000)` and `[0x1000, 0x1004)` are disjoint — yet
the first case of the source test (`action_start < watch_start &&
action_end >= watch_start`) latches the trigger. -/
theorem C2_counterexample :
    (checkWatchpoints memC2 0xFFC 4 true).watchTrigger =
      some (WatchKind.write, 0xFFC) ∧
    Finset.Ico (0xFFC : ℕ) (0xFFC + 4) ∩ Finset.Ico 0x1000 (0x1000 + 4) = ∅ := by
  constructor
  · rfl
  · decide

/-- **C2 (amended).**  For a single installed watch entry
`(ws, wl, kind)` whose kind is compatible with the access direction,
and a non-privileged access of `len` bytes at `addr` performed while
`watch_trigger` is empty, the trigger is latched with `(kind, addr)`
iff `ws ≤ addr + len` and `addr < ws + wl` — that is, iff the intervals
overlap **or** the access ends exactly at `ws` (the source's first case
uses `action_end >= watch_start`, admitting the touching-from-below
access).  The `< 2^32` bounds mirror the absence of `u32` overflow. -/
theorem C2_watch_match_iff (m : Memory) (ws wl addr len : ℕ) (kind : WatchKind)
    (isWrite : Bool)
    (hlist : m.hwWatchpoints = [(ws, wl, kind)])
    (htrig : m.watchTrigger = none)
    (hkindW : isWrite = true → kind ≠ WatchKind.read)
    (hkindR : isWrite = false → kind ≠ WatchKind.write)
    (hws : ws + wl < 2 ^ 32) (haddr : addr + len < 2 ^ 32) :
    (checkWatchpoints m addr len isWrite).watchTrigger = some (kind, addr) ↔
      (ws ≤ addr + len ∧ addr < ws + wl) := by
  have hmatch : watchMatch (ws, wl, kind) addr len isWrite = true ↔
      (ws ≤ addr + len ∧ addr < ws + wl) := by
    unfold watchMatch
    rcases isWrite
    · have hk := hkindR rfl
      rcases kind <;> simp_all <;> omega
    · have hk := hkindW rfl
      rcases kind <;> simp_all <;> omega
  unfold checkWatchpoints
  rw [htrig, hlist]
  simp only [Option.isSome_none, Bool.false_eq_true, if_false, List.find?]
  by_cases hm : watchMatch (ws, wl, kind) addr len isWrite = true
  · rw [hm]
    simpa using hmatch.mp hm
  · rw [Bool.not_eq_true] at hm
    rw [hm]
    have : ¬(ws ≤ addr + len ∧ addr < ws + wl) := fun hc => by
      rw [hm] at hmatch
      exact Bool.false_ne_true (hmatch.mpr hc)
    simp [htrig, this]

/-- Witness for `C2_watch_match_iff`: the entry `(0x1000, 4, write)`
and a 2-byte write at `0x1001` overlap, and the trigger is latched. -/
theorem C2_watch_match_iff_witness :
    memC2.hwWatchpoints = [(0x1000, 4, WatchKind.write)] ∧
    memC2.watchTrigger = none ∧
    ((checkWatchpoints memC2 0x1001 2 true).watchTrigger =
        some (WatchKind.write, 0x1001) ↔
      (0x1000 ≤ 0x1001 + 2 ∧ 0x1001 < 0x1000 + 4)) :=
  ⟨rfl, rfl,
    C2_watch_match_iff memC2 0x1000 4 0x1001 2 WatchKind.write true rfl rfl
      (fun _ => by decide) (fun h => by cases h) (by decide) (by decide)⟩

/-- OP-IMM instructions never consult `funct7`, so the `funct7`
argument of the core is irrelevant when `opcode = 19`. -/
theorem opcodeCycleCore_19_funct7_irrel (funct3 funct7 : ℕ) :
    opcodeCycleCore 19 funct3 funct7 = opcodeCycleCore 19 funct3 0 := rfl

/-- OP-IMM (`0b0010011`) costs: 1 for `funct3 < 4`, 2 for `funct3 ≥ 4`. -/
theorem opcodeCycleCore_19_cycle :
    ∀ funct3 < 8, (funct3 < 4 → opcodeCycleCore 19 funct3 0 = .ok 1) ∧
      (4 ≤ funct3 → opcodeCycleCore 19 funct3 0 = .ok 2) := by decide

/-- OP (`0b0110011`) costs over the legal `(funct3, funct7)` pairs:
1 for `funct3 < 4`, 2 for `funct3 ≥ 4`; illegal pairs error. -/
theorem opcodeCycleCore_51_cycle (funct3 funct7 : ℕ) (h3 : funct3 < 8)
    (h7 : funct7 < 128) :
    ((funct7 = 0 ∨ funct7 = 1 ∨ (funct7 = 32 ∧ (funct3 = 0 ∨ funct3 = 5))) →
      (funct3 < 4 → opcodeCycleCore 51 funct3 funct7 = .ok 1) ∧
      (4 ≤ funct3 → opcodeCycleCore 51 funct3 funct7 = .ok 2)) ∧
    (¬(funct7 = 0 ∨ funct7 = 1 ∨ (funct7 = 32 ∧ (funct3 = 0 ∨ funct3 = 5))) →
      opcodeCycleCore 51 funct3 funct7 = .error "Illegal instruction2") := by
  interval_cases funct3 <;> interval_cases funct7 <;> decide

/-- **C3 counterexample.**  The claim says OP-IMM/OP shift instructions
cost 2 and multiplies cost 2.  `0x00101013` is `SLLI x0, x0, 1`
(OP-IMM, funct3 = 1, a shift) and `0x02000033` is `MUL x0, x0, x0`
(OP, funct3 = 0, funct7 = 1, a multiply): `get_opcode_cycle` returns 1
for both, not 2. -/
theorem C3_counterexample :
    getOpcodeCycle 0x00101013 = .ok 1 ∧ getOpcodeCycle 0x00101013 ≠ .ok 2 ∧
    getOpcodeCycle 0x02000033 = .ok 1 ∧ getOpcodeCycle 0x02000033 ≠ .ok 2 := by
  refine ⟨rfl, by decide, rfl, by decide⟩

/-- **C3 (amended).**  `get_opcode_cycle` returns 1 for every load,
store, LUI, AUIPC, branch, JAL, JALR and SYSTEM encoding; for OP-IMM
and OP encodings the cost depends only on `funct3`: 1 when
`funct3 ≤ 3` (ADDI/SLLI/SLTI/SLTIU, ADD/SUB/SLL/SLT/SLTU and
MUL/MULH/MULHSU/MULHU) and 2 when `funct3 ≥ 4` (XORI/SRLI/SRAI/ORI/
ANDI, XOR/SRL/SRA/OR/AND and DIV/DIVU/REM/REMU) — so shifts left cost
1 and multiplies cost 1 while XOR/OR/AND cost 2; OP pairs outside the
legal `funct7` table and any other opcode yield an error. -/
theorem C3_opcode_cycle_characterization (insn : ℕ) :
    ((insn % 128 = 3 ∨ insn % 128 = 35 ∨ insn % 128 = 55 ∨ insn % 128 = 23 ∨
      insn % 128 = 99 ∨ insn % 128 = 111 ∨ insn % 128 = 103 ∨ insn % 128 = 115) →
        getOpcodeCycle insn = .ok 1) ∧
    (insn % 128 = 19 →
      (insn / 4096 % 8 < 4 → getOpcodeCycle insn = .ok 1) ∧
      (4 ≤ insn / 4096 % 8 → getOpcodeCycle insn = .ok 2)) ∧
    (insn % 128 = 51 →
      ((insn / 33554432 % 128 = 0 ∨ insn / 33554432 % 128 = 1 ∨
        (insn / 33554432 % 128 = 32 ∧ (insn / 4096 % 8 = 0 ∨ insn / 4096 % 8 = 5))) →
          (insn / 4096 % 8 < 4 → getOpcodeCycle insn = .ok 1) ∧
          (4 ≤ insn / 4096 % 8 → getOpcodeCycle insn = .ok 2)) ∧
      (¬(insn / 33554432 % 128 = 0 ∨ insn / 33554432 % 128 = 1 ∨
         (insn / 33554432 % 128 = 32 ∧ (insn / 4096 % 8 = 0 ∨ insn / 4096 % 8 = 5))) →
          getOpcodeCycle insn = .error "Illegal instruction2")) ∧
    (insn % 128 ∉ ([3, 19, 23, 35, 51, 55, 99, 103, 111, 115] : List ℕ) →
      getOpcodeCycle insn = .error "Illegal instruction3") := by
  have hf3 : insn / 4096 % 8 < 8 := Nat.mod_lt _ (by norm_num)
  have hf7 : insn / 33554432 % 128 < 128 := Nat.mod_lt _ (by norm_num)
  refine ⟨?_, ?_, ?_, ?_⟩
  · rintro (h | h | h | h | h | h | h | h) <;> (unfold getOpcodeCycle; rw [h]; rfl)
  · intro h
    have e := opcodeCycleCore_19_cycle (insn / 4096 % 8) hf3
    unfold getOpcodeCycle
    rw [h, opcodeCycleCore_19_funct7_irrel]
    exact e
  · intro h
    have e := opcodeCycleCore_51_cycle (insn / 4096 % 8) (insn / 33554432 % 128) hf3 hf7
    unfold getOpcodeCycle
    rw [h]
    exact e
  · intro h
    have h3 : insn % 128 ≠ 3 := fun hc => h (by simp [hc])
    have h19 : insn % 128 ≠ 19 := fun hc => h (by simp [hc])
    have h23 : insn % 128 ≠ 23 := fun hc => h (by simp [hc])
    have h35 : insn % 128 ≠ 35 := fun hc => h (by simp [hc])
    have h51 : insn % 128 ≠ 51 := fun hc => h (by simp [hc])
    have h55 : insn % 128 ≠ 55 := fun hc => h (by simp [hc])
    have h99 : insn % 128 ≠ 99 := fun hc => h (by simp [hc])
    have h103 : insn % 128 ≠ 103 := fun hc => h (by simp [hc])
    have h111 : insn % 128 ≠ 111 := fun hc => h (by simp [hc])
    have h115 : insn % 128 ≠ 115 := fun hc => h (by simp [hc])
    unfold getOpcodeCycle opcodeCycleCore
    simp [h3, h19, h23, h35, h51, h55, h99, h103, h111, h115]

/-- Witness for `C3_opcode_cycle_characterization`: `XORI` (`0x00004013`,
OP-IMM with funct3 = 4) costs 2. -/
theorem C3_opcode_cycle_characterization_witness :
    getOpcodeCycle 0x00004013 = .ok 2 :=
  ((C3_opcode_cycle_characterization 0x00004013).2.1 (by decide)).2 (by decide)

/-- Everything already accumulated stays in the chain walk's result. -/
theorem walkChain_acc_subset (fuel : ℕ) (seg acc : List ℕ) (cost i : ℕ) :
    ∀ q ∈ acc, q ∈ (walkChain fuel seg acc cost i).1 := by
  induction fuel generalizing acc cost i with
  | zero => intro q hq; exact hq
  | succ fuel ih =>
    intro q hq
    unfold walkChain
    split
    · exact hq
    · split
      · exact List.mem_append_left _ hq
      · exact ih _ _ _ q (List.mem_append_left _ hq)

/-- Unless the start page is already segment-resident, the chain walk
reaches it: `i` ends up in the result list. -/
theorem walkChain_start_mem (fuel : ℕ) (seg acc : List ℕ) (cost i : ℕ)
    (hfuel : 1 ≤ fuel) :
    i ∈ seg ∨ i ∈ (walkChain fuel seg acc cost i).1 := by
  cases fuel with
  | zero => omega
  | succ fuel =>
    unfold walkChain
    split
    · rename_i h
      rcases h with h | h
      · exact Or.inl h
      · exact Or.inr h
    · split
      · exact Or.inr (List.mem_append_right _ (List.mem_singleton.mpr rfl))
      · exact Or.inr (walkChain_acc_subset _ _ _ _ _ i
          (List.mem_append_right _ (List.mem_singleton.mpr rfl)))

/-- Every page the chain walk adds lies on the parent chain of the
start page (or was in the accumulator already). -/
theorem walkChain_mem_chain (fuel : ℕ) (seg acc : List ℕ) (cost i : ℕ) :
    ∀ q ∈ (walkChain fuel seg acc cost i).1,
      q ∈ acc ∨ ∃ k, pageParentIter k i = q := by
  induction fuel generalizing acc cost i with
  | zero => intro q hq; exact Or.inl hq
  | succ fuel ih =>
    intro q hq
    unfold walkChain at hq
    split at hq
    · exact Or.inl hq
    · split at hq
      · rcases List.mem_append.mp hq with h | h
        · exact Or.inl h
        · exact Or.inr ⟨0, (List.mem_singleton.mp h).symm⟩
      · rcases ih _ _ _ q hq with h | ⟨k, hk⟩
        · rcases List.mem_append.mp h with h | h
          · exact Or.inl h
          · exact Or.inr ⟨0, (List.mem_singleton.mp h).symm⟩
        · exact Or.inr ⟨k + 1, by
            show pageParentIter k (pageParent i) = q
            exact hk⟩

/-- The chain walk adds at most `1 + 5 + (16 + 52) * 16 = 1094` cycles
per fuel unit. -/
theorem walkChain_cost_le (fuel : ℕ) (seg acc : List ℕ) (cost i : ℕ) :
    (walkChain fuel seg acc cost i).2 ≤ cost + fuel * 1094 := by
  induction fuel generalizing acc cost i with
  | zero => simp [walkChain]
  | succ fuel ih =>
    unfold walkChain
    split
    · simp
    · split
      · simp only []
        calc cost + (1 + 5 + (16 + 52) * 11) ≤ cost + 1094 := by omega
          _ ≤ cost + (fuel + 1) * 1094 := by nlinarith
      · calc (walkChain fuel seg (acc ++ [i]) (cost + (1 + 5 + (16 + 52) * 16))
              (pageParent i)).2 ≤ cost + (1 + 5 + (16 + 52) * 16) + fuel * 1094 := ih _ _ _
          _ ≤ cost + (fuel + 1) * 1094 := by nlinarith

/-- Every page collected by the per-step accounting lies on the parent
chain of some page recorded in the per-step scratch list. -/
theorem accumulateChains_mem_chain (seg : List ℕ) (pages : List ℕ) :
    ∀ q ∈ (accumulateChains seg pages).1,
      ∃ p ∈ pages, ∃ k, pageParentIter k p = q := by
  unfold accumulateChains
  suffices h : ∀ (l : List ℕ) (acc : List ℕ × ℕ),
      (∀ q ∈ acc.1, ∃ p ∈ pages, ∃ k, pageParentIter k p = q) →
      (∀ p ∈ l, p ∈ pages) →
      ∀ q ∈ (l.foldl (fun acc p => walkChain WALK_FUEL seg acc.1 acc.2 p) acc).1,
        ∃ p ∈ pages, ∃ k, pageParentIter k p = q by
    exact h pages ([], 0) (by simp) (fun p hp => hp)
  intro l
  induction l with
  | nil => intro acc hacc _ q hq; exact hacc q hq
  | cons p l ih =>
    intro acc hacc hl q hq
    refine ih _ ?_ (fun r hr => hl r (List.mem_cons_of_mem _ hr)) q hq
    intro r hr
    rcases walkChain_mem_chain _ _ _ _ _ r hr with h | ⟨k, hk⟩
    · exact hacc r h
    · exact ⟨p, hl p (List.mem_cons_self _ _), k, hk⟩

/-- Membership in the committed set: `foldl insertSet` is union. -/
theorem mem_foldl_insertSet (l s : List ℕ) (q : ℕ) :
    q ∈ l.foldl insertSet s ↔ q ∈ s ∨ q ∈ l := by
  induction l generalizing s with
  | nil => simp
  | cons x l ih =>
    simp only [List.foldl_cons, ih, insertSet]
    split
    · rename_i hx
      constructor
      · rintro (h | h)
        · exact Or.inl h
        · exact Or.inr (List.mem_cons_of_mem _ h)
      · rintro (h | h)
        · exact Or.inl h
        · rcases List.mem_cons.mp h with h | h
          · exact Or.inl (h ▸ hx)
          · exact Or.inr h
    · simp only [List.mem_append, List.mem_singleton, List.mem_cons]
      tauto

/-- Shape of a committing (`redo = false`) `callback_step` iteration. -/
theorem callbackStepOnce_false_spec (c : SessionCycleCount) (oc ec : ℕ)
    (c1 : SessionCycleCount) (h : callbackStepOnce c oc ec = (c1, false)) :
    c1.numSegment = c.numSegment ∧
    c1.curSegmentResident =
      (accumulateChains c.curSegmentResident c.curStepRead).1.foldl insertSet
        c.curSegmentResident ∧
    c1.curSegmentDirty =
      (accumulateChains c.curSegmentDirty c.curStepWrite).1.foldl insertSet
        c.curSegmentDirty ∧
    c1.curStepRead = [] ∧ c1.curStepWrite = [] := by
  by_cases hc : PRE_CYCLE + POST_CYCLE + OTHER_CONST_CYCLE + c.curSegmentCycle +
      (oc + ec + (accumulateChains c.curSegmentResident c.curStepRead).2 +
        (accumulateChains c.curSegmentDirty c.curStepWrite).2) > 1048576
  · simp [callbackStepOnce, updateCurSegmentTotalCycle, hc] at h
  · simp [callbackStepOnce, updateCurSegmentTotalCycle, hc] at h
    subst h
    exact ⟨rfl, rfl, rfl, rfl, rfl⟩

/-- Shape of a rolling-over (`redo = true`) `callback_step` iteration:
the segment is reset but the per-step scratch lists survive. -/
theorem callbackStepOnce_true_spec (c : SessionCycleCount) (oc ec : ℕ)
    (c1 : SessionCycleCount) (h : callbackStepOnce c oc ec = (c1, true)) :
    c1 = { c with numSegment := c.numSegment + 1, curSegmentCycle := 0,
                  curSegmentResident := [], curSegmentDirty := [] } := by
  by_cases hc : PRE_CYCLE + POST_CYCLE + OTHER_CONST_CYCLE + c.curSegmentCycle +
      (oc + ec + (accumulateChains c.curSegmentResident c.curStepRead).2 +
        (accumulateChains c.curSegmentDirty c.curStepWrite).2) > 1048576
  · simp [callbackStepOnce, updateCurSegmentTotalCycle, hc] at h
    subst h
    rfl
  · simp [callbackStepOnce, updateCurSegmentTotalCycle, hc] at h

/-- **C7 counterexample.**  The claim says a page-index appears in
`cur_segment_resident` only if that page was read in the segment.
After a step whose only recorded read is page 1, the resident set also
contains page `212992` — the Merkle-chain parent
`(0x0D00_0000 + 1 * 32) >> 10` of page 1 — which was never read. -/
theorem C7_counterexample :
    (match callbackStep cycC7 1 0 with
     | .ok c => 212992 ∈ c.curSegmentResident ∧ 212992 ∉ cycC7.curStepRead
     | .error _ => False) := by
  constructor
  · decide
  · decide

/-- **C7 (amended).**  A page-index appears in `cur_segment_resident`
only if it was read earlier in the same segment **or is an ancestor of
a read page along the Merkle chain `idx ↦ (0x0D00_0000 + idx*32) >> 10`**
(the accountant adds the whole chain of every newly read page, not
just the page itself); symmetrically for `cur_segment_dirty` and
writes.  Both sets grow monotonically while no segment boundary is
crossed, and at a boundary they are cleared and refilled from the
in-flight step's accesses alone. -/
theorem C7_resident_dirty_provenance (c : SessionCycleCount) (oc ec : ℕ)
    (c' : SessionCycleCount) (h : callbackStep c oc ec = .ok c') :
    (∀ q ∈ c'.curSegmentResident,
        q ∈ c.curSegmentResident ∨ ∃ p ∈ c.curStepRead, ∃ k, pageParentIter k p = q) ∧
    (∀ q ∈ c'.curSegmentDirty,
        q ∈ c.curSegmentDirty ∨ ∃ p ∈ c.curStepWrite, ∃ k, pageParentIter k p = q) ∧
    (c'.numSegment = c.numSegment →
        (∀ q ∈ c.curSegmentResident, q ∈ c'.curSegmentResident) ∧
        (∀ q ∈ c.curSegmentDirty, q ∈ c'.curSegmentDirty)) ∧
    (c'.numSegment ≠ c.numSegment →
        (∀ q ∈ c'.curSegmentResident, ∃ p ∈ c.curStepRead, ∃ k, pageParentIter k p = q) ∧
        (∀ q ∈ c'.curSegmentDirty, ∃ p ∈ c.curStepWrite, ∃ k, pageParentIter k p = q)) := by
  rcases hr : callbackStepOnce c oc ec with ⟨c1, redo⟩
  rcases redo
  · rw [callbackStep, hr] at h
    simp only [Except.ok.injEq] at h
    subst h
    obtain ⟨hnum, hres, hdir, _, _⟩ := callbackStepOnce_false_spec c oc ec c1 hr
    refine ⟨?_, ?_, ?_, ?_⟩
    · intro q hq
      rw [hres, mem_foldl_insertSet] at hq
      rcases hq with hq | hq
      · exact Or.inl hq
      · exact Or.inr (accumulateChains_mem_chain _ _ q hq)
    · intro q hq
      rw [hdir, mem_foldl_insertSet] at hq
      rcases hq with hq | hq
      · exact Or.inl hq
      · exact Or.inr (accumulateChains_mem_chain _ _ q hq)
    · intro _
      constructor
      · intro q hq
        rw [hres, mem_foldl_insertSet]
        exact Or.inl hq
      · intro q hq
        rw [hdir, mem_foldl_insertSet]
        exact Or.inl hq
    · intro hne
      exact absurd hnum hne
  · rw [callbackStep, hr] at h
    have hc1 := callbackStepOnce_true_spec c oc ec c1 hr
    rcases hr2 : callbackStepOnce c1 oc ec with ⟨c2, redo2⟩
    simp only [hr2] at h
    rcases redo2
    · simp only [Except.ok.injEq] at h
      subst h
      obtain ⟨hnum2, hres2, hdir2, _, _⟩ := callbackStepOnce_false_spec c1 oc ec c2 hr2
      have hseg : c2.numSegment = c.numSegment + 1 := by rw [hnum2, hc1]
      have hkeepR : c1.curStepRead = c.curStepRead := by rw [hc1]
      have hkeepW : c1.curStepWrite = c.curStepWrite := by rw [hc1]
      have hresEmpty : c1.curSegmentResident = [] := by rw [hc1]
      have hdirEmpty : c1.curSegmentDirty = [] := by rw [hc1]
      have hresOnly : ∀ q ∈ c2.curSegmentResident,
          ∃ p ∈ c.curStepRead, ∃ k, pageParentIter k p = q := by
        intro q hq
        rw [hres2, hresEmpty, hkeepR, mem_foldl_insertSet] at hq
        rcases hq with hq | hq
        · cases hq
        · exact accumulateChains_mem_chain [] c.curStepRead q hq
      have hdirOnly : ∀ q ∈ c2.curSegmentDirty,
          ∃ p ∈ c.curStepWrite, ∃ k, pageParentIter k p = q := by
        intro q hq
        rw [hdir2, hdirEmpty, hkeepW, mem_foldl_insertSet] at hq
        rcases hq with hq | hq
        · cases hq
        · exact accumulateChains_mem_chain [] c.curStepWrite q hq
      refine ⟨fun q hq => Or.inr (hresOnly q hq),
              fun q hq => Or.inr (hdirOnly q hq), ?_, fun _ => ⟨hresOnly, hdirOnly⟩⟩
      intro heq
      rw [hseg] at heq
      omega
    · simp at h

/-- Witness for `C7_resident_dirty_provenance` at the concrete step of
the counterexample state. -/
theorem C7_resident_dirty_provenance_witness :
    callbackStep cycC7 1 0 = .ok cycC7out ∧
    ((∀ q ∈ cycC7out.curSegmentResident,
        q ∈ cycC7.curSegmentResident ∨
          ∃ p ∈ cycC7.curStepRead, ∃ k, pageParentIter k p = q) ∧
     (∀ q ∈ cycC7out.curSegmentDirty,
        q ∈ cycC7.curSegmentDirty ∨
          ∃ p ∈ cycC7.curStepWrite, ∃ k, pageParentIter k p = q) ∧
     (cycC7out.numSegment = cycC7.numSegment →
        (∀ q ∈ cycC7.curSegmentResident, q ∈ cycC7out.curSegmentResident) ∧
        (∀ q ∈ cycC7.curSegmentDirty, q ∈ cycC7out.curSegmentDirty)) ∧
     (cycC7out.numSegment ≠ cycC7.numSegment →
        (∀ q ∈ cycC7out.curSegmentResident,
          ∃ p ∈ cycC7.curStepRead, ∃ k, pageParentIter k p = q) ∧
        (∀ q ∈ cycC7out.curSegmentDirty,
          ∃ p ∈ cycC7.curStepWrite, ∃ k, pageParentIter k p = q))) :=
  ⟨by decide, C7_resident_dirty_provenance cycC7 1 0 cycC7out (by decide)⟩

/-- If the only page touched by a step is a single read page `p` (and
the opcode/extra cost is moderate), `callback_step` always succeeds —
by the second attempt at the latest, since a single chain costs at
most `64 * 1094` cycles against the `1048576` segment budget — and `p`
is resident afterwards with the per-step scratch lists cleared. -/
theorem callbackStep_single_read (c : SessionCycleCount) (p oc ec : ℕ)
    (hr : c.curStepRead = [p]) (hw : c.curStepWrite = [])
    (hsmall : oc + ec ≤ 900000) :
    ∃ c', callbackStep c oc ec = .ok c' ∧ p ∈ c'.curSegmentResident ∧
      c'.curStepRead = [] ∧ c'.curStepWrite = [] := by
  have hacc1 : ∀ seg : List ℕ, accumulateChains seg [p] = walkChain WALK_FUEL seg [] 0 p :=
    fun _ => rfl
  have hcost : ∀ seg : List ℕ, (walkChain WALK_FUEL seg [] 0 p).2 ≤ 70016 := by
    intro seg
    have := walkChain_cost_le WALK_FUEL seg [] 0 p
    simpa [WALK_FUEL] using this
  have hmem : ∀ seg c₀ : List ℕ,
      p ∈ seg ∨ p ∈ (walkChain WALK_FUEL seg [] 0 p).1 :=
    fun seg _ => walkChain_start_mem WALK_FUEL seg [] 0 p (by norm_num [WALK_FUEL])
  rcases h1 : callbackStepOnce c oc ec with ⟨c1, redo⟩
  rcases redo
  · -- the first attempt commits
    obtain ⟨hnum, hres, _, hstepR, hstepW⟩ := callbackStepOnce_false_spec c oc ec c1 h1
    refine ⟨c1, ?_, ?_, hstepR, hstepW⟩
    · rw [callbackStep, h1]
    · rw [hres, hr, hacc1, mem_foldl_insertSet]
      rcases hmem c.curSegmentResident [] with hm | hm
      · exact Or.inl hm
      · exact Or.inr hm
  · -- roll-over: the fresh-segment attempt must commit
    have hc1 := callbackStepOnce_true_spec c oc ec c1 h1
    have hc1r : c1.curStepRead = [p] := by rw [hc1]; exact hr
    have hc1w : c1.curStepWrite = [] := by rw [hc1]; exact hw
    have hc1res : c1.curSegmentResident = [] := by rw [hc1]
    have hc1dir : c1.curSegmentDirty = [] := by rw [hc1]
    have hc1cyc : c1.curSegmentCycle = 0 := by rw [hc1]
    have hnofit : ¬(PRE_CYCLE + POST_CYCLE + OTHER_CONST_CYCLE + c1.curSegmentCycle +
        (oc + ec + (accumulateChains c1.curSegmentResident c1.curStepRead).2 +
          (accumulateChains c1.curSegmentDirty c1.curStepWrite).2) > 1048576) := by
      rw [hc1r, hc1w, hc1res, hc1dir, hc1cyc, hacc1]
      have := hcost ([] : List ℕ)
      have hwacc : (accumulateChains ([] : List ℕ) ([] : List ℕ)).2 = 0 := rfl
      rw [hwacc]
      unfold PRE_CYCLE POST_CYCLE OTHER_CONST_CYCLE
      omega
    rcases h2 : callbackStepOnce c1 oc ec with ⟨c2, redo2⟩
    rcases redo2
    · obtain ⟨_, hres2, _, hstepR2, hstepW2⟩ := callbackStepOnce_false_spec c1 oc ec c2 h2
      refine ⟨c2, ?_, ?_, hstepR2, hstepW2⟩
      · rw [callbackStep, h1]
        simp only [h2]
      · rw [hres2, hc1res, hc1r, hacc1, mem_foldl_insertSet]
        rcases hmem ([] : List ℕ) [] with hm | hm
        · cases hm
        · exact Or.inr hm
    · exfalso
      simp only [callbackStepOnce, updateCurSegmentTotalCycle, if_neg hnofit] at h2
      simp at h2

/-- `check_watchpoints` only ever writes `watch_trigger`. -/
theorem checkWatchpoints_fields (m : Memory) (addr len : ℕ) (w : Bool) :
    (checkWatchpoints m addr len w).data = m.data ∧
    (checkWatchpoints m addr len w).hwWatchpoints = m.hwWatchpoints ∧
    (checkWatchpoints m addr len w).cycle = m.cycle := by
  unfold checkWatchpoints
  split
  · exact ⟨rfl, rfl, rfl⟩
  · split <;> exact ⟨rfl, rfl, rfl⟩

/-- The accountant state after a non-privileged read's side effects. -/
theorem readTouch_cycle (m : Memory) (addr len : ℕ) :
    (readTouch m addr len).cycle = callbackReadMem m.cycle (addr / 1024) :=
  (checkWatchpoints_fields _ _ _ _).2.2

/-- The data array survives a non-privileged read's side effects. -/
theorem readTouch_data (m : Memory) (addr len : ℕ) :
    (readTouch m addr len).data = m.data :=
  (checkWatchpoints_fields _ _ _ _).1

/-- The accountant state after a non-privileged write's side effects. -/
theorem writeTouch_cycle (m : Memory) (addr len : ℕ) :
    (writeTouch m addr len).cycle = callbackWriteMem m.cycle (addr / 1024) :=
  (checkWatchpoints_fields _ _ _ _).2.2

/-- The data array survives a non-privileged write's side effects. -/
theorem writeTouch_data (m : Memory) (addr len : ℕ) :
    (writeTouch m addr len).data = m.data :=
  (checkWatchpoints_fields _ _ _ _).1

/-- A successful in-window word fetch: value and state shape. -/
theorem readMem_word_spec (m : Memory) (addr : ℕ)
    (h1 : GUEST_MIN_MEM ≤ addr) (h2 : addr ≤ GUEST_MAX_MEM) :
    readMem m addr MemAccessSize.word false =
      (some (m.data (addr / 1024) (addr % 1024 / 4)), readTouch m addr 4) := by
  unfold readMem
  rw [if_neg (by unfold GUEST_MIN_MEM GUEST_MAX_MEM at *; omega)]
  rfl

/-- An element freshly inserted is a member. -/
theorem mem_insertSet_self (s : List ℕ) (x : ℕ) : x ∈ insertSet s x := by
  unfold insertSet
  split
  · assumption
  · exact List.mem_append_right _ (List.mem_singleton.mpr rfl)

/-- Insertion preserves membership. -/
theorem mem_insertSet_of_mem (s : List ℕ) (x q : ℕ) (h : q ∈ s) :
    q ∈ insertSet s x := by
  unfold insertSet
  split
  · assumption
  · exact List.mem_append_left _ h

/-- Unfolding `Simulator::step` on an ECALL fetch: once the word read
at PC returns the ECALL encoding `0x73`, the step is the syscall
dispatch (opcode cycle 1) followed by the accountant callback and the
watch-trigger inspection. -/
theorem simStep_ecall_eq (ex : Sim → Except String Sim) (fuel : ℕ) (st : Sim)
    (hfetch : readMem st.mem st.pc MemAccessSize.word false =
      (some 0x73, readTouch st.mem st.pc 4)) :
    simStep ex fuel st =
      (match Simulator.ecall fuel
          { st with mem := { readTouch st.mem st.pc 4 with watchTrigger := none } } with
       | .error e => .error e
       | .ok (newPc, exitCode, extraCycle, st2) =>
         match callbackStep st2.mem.cycle 1 extraCycle with
         | .error e => .error e
         | .ok cyc' =>
           match exitCode, (stepCommit st2 newPc cyc').mem.watchTrigger with
           | none, some wt => .ok (some (ExitCode.hwWatchPoint wt),
               stepCommit st2 newPc cyc')
           | ec, _ => .ok (ec, stepCommit st2 newPc cyc')) := by
  unfold simStep
  rw [hfetch]
  rfl

/-- Dispatch of the ECALL table at `T0 = 0`: the HALT handler. -/
theorem ecall_dispatch_halt (fuel : ℕ) (st : Sim) (ht0 : st.registers REG_T0 = 0) :
    Simulator.ecall fuel st = ecallHalt st := by
  unfold Simulator.ecall
  rw [ht0]

/-- Dispatch of the ECALL table at `T0 = 1`: the INPUT handler. -/
theorem ecall_dispatch_input (fuel : ℕ) (st : Sim) (ht0 : st.registers REG_T0 = 1) :
    Simulator.ecall fuel st = ecallInput st := by
  unfold Simulator.ecall
  rw [ht0]

/-- **C8 (confirmed).**  For a step executing an ECALL with
`registers[T0] = 0` (HALT): when the low byte of `A0` is 0 the step
returns `Halted(b)`, when it is 1 the step returns `Paused(b)`, where
`b = (A0 >> 8) & 0xff`; in both cases the PC after the step equals the
PC at entry (the stop is idempotent), and the HALT handler's extra
cycle cost is 0.  The hypotheses say the word at PC is the ECALL
encoding `0x73`, PC is fetchable, and the per-step scratch sets are
empty (as they are between steps). -/
theorem C8_ecall_halt_semantics (ex : Sim → Except String Sim) (fuel : ℕ) (st : Sim)
    (hpcLo : GUEST_MIN_MEM ≤ st.pc) (hpcHi : st.pc ≤ GUEST_MAX_MEM)
    (hinsn : st.mem.data (st.pc / 1024) (st.pc % 1024 / 4) = 0x73)
    (ht0 : st.registers REG_T0 = 0)
    (hsr : st.mem.cycle.curStepRead = [])
    (hsw : st.mem.cycle.curStepWrite = []) :
    (st.registers REG_A0 % 256 = 0 →
      (simStep ex fuel st).map (fun r => (r.1, r.2.pc)) =
        .ok (some (ExitCode.halted (st.registers REG_A0 / 256 % 256)), st.pc)) ∧
    (st.registers REG_A0 % 256 = 1 →
      (simStep ex fuel st).map (fun r => (r.1, r.2.pc)) =
        .ok (some (ExitCode.paused (st.registers REG_A0 / 256 % 256)), st.pc)) ∧
    (∀ r, ecallHalt st = .ok r → r.2.2.1 = 0) := by
  have hfetch := readMem_word_spec st.mem st.pc hpcLo hpcHi
  rw [hinsn] at hfetch
  have hstep := simStep_ecall_eq ex fuel st hfetch
  -- the cleared-trigger state handed to the dispatcher
  have hcycle : ({ st with
      mem := { readTouch st.mem st.pc 4 with watchTrigger := none } } : Sim).mem.cycle =
      callbackReadMem st.mem.cycle (st.pc / 1024) := readTouch_cycle _ _ _
  have hstepR : (callbackReadMem st.mem.cycle (st.pc / 1024)).curStepRead =
      [st.pc / 1024] := by
    simp [callbackReadMem, hsr, insertSet]
  have hstepW : (callbackReadMem st.mem.cycle (st.pc / 1024)).curStepWrite = [] := by
    simp [callbackReadMem, hsw]
  obtain ⟨c', hcs, hresMem, hstepR', hstepW'⟩ :=
    callbackStep_single_read (callbackReadMem st.mem.cycle (st.pc / 1024))
      (st.pc / 1024) 1 0 hstepR hstepW (by omega)
  set st' : Sim :=
    { st with mem := { readTouch st.mem st.pc 4 with watchTrigger := none } } with hst'
  have ht0' : st'.registers REG_T0 = 0 := ht0
  have hcyc' : st'.mem.cycle = callbackReadMem st.mem.cycle (st.pc / 1024) := hcycle
  refine ⟨?_, ?_, ?_⟩
  · intro h0
    have h0' : st'.registers REG_A0 % 256 = 0 := h0
    have hecall : Simulator.ecall fuel st' =
        .ok (st.pc, some (ExitCode.halted (st.registers REG_A0 / 256 % 256)), 0, st') := by
      rw [ecall_dispatch_halt fuel st' ht0']
      unfold ecallHalt
      rw [if_pos h0']
    rw [hstep, hecall]
    show (match callbackStep st'.mem.cycle 1 0 with
      | .error e => (.error e : Except String (Option ExitCode × Sim))
      | .ok cyc' =>
        .ok (some (ExitCode.halted (st.registers REG_A0 / 256 % 256)),
          stepCommit st' st.pc cyc')).map
      (fun r : Option ExitCode × Sim => (r.1, r.2.pc)) = _
    rw [hcyc', hcs]
    rfl
  · intro h1
    have h1' : st'.registers REG_A0 % 256 = 1 := h1
    have hne : ¬(st'.registers REG_A0 % 256 = 0) := by
      rw [show st'.registers REG_A0 = st.registers REG_A0 from rfl]
      omega
    have hecall : Simulator.ecall fuel st' =
        .ok (st.pc, some (ExitCode.paused (st.registers REG_A0 / 256 % 256)), 0, st') := by
      rw [ecall_dispatch_halt fuel st' ht0']
      unfold ecallHalt
      rw [if_neg hne, if_pos h1']
    rw [hstep, hecall]
    show (match callbackStep st'.mem.cycle 1 0 with
      | .error e => (.error e : Except String (Option ExitCode × Sim))
      | .ok cyc' =>
        .ok (some (ExitCode.paused (st.registers REG_A0 / 256 % 256)),
          stepCommit st' st.pc cyc')).map
      (fun r : Option ExitCode × Sim => (r.1, r.2.pc)) = _
    rw [hcyc', hcs]
    rfl
  · intro r hr
    unfold ecallHalt at hr
    split_ifs at hr <;> (simp only [Except.ok.injEq] at hr; rw [← hr])

/-- Witness for `C8_ecall_halt_semantics` at the concrete HALT state:
the step returns `Halted(0x2A)` and the PC stays `0x1000`. -/
theorem C8_ecall_halt_semantics_witness :
    (GUEST_MIN_MEM ≤ stC8.pc ∧ stC8.pc ≤ GUEST_MAX_MEM ∧
     stC8.mem.data (stC8.pc / 1024) (stC8.pc % 1024 / 4) = 0x73 ∧
     stC8.registers REG_T0 = 0 ∧ stC8.mem.cycle.curStepRead = [] ∧
     stC8.mem.cycle.curStepWrite = [] ∧ stC8.registers REG_A0 % 256 = 0) ∧
    (simStep rrsExecUnused 1 stC8).map
      (fun r : Option ExitCode × Sim => (r.1, r.2.pc)) =
      .ok (some (ExitCode.halted 0x2A), 0x1000) :=
  ⟨⟨by decide, by decide, rfl, rfl, rfl, rfl, rfl⟩,
   (C8_ecall_halt_semantics rrsExecUnused 1 stC8 (by decide) (by decide)
      rfl rfl rfl rfl).1 rfl⟩

/-- **C5 counterexample.**  The claim says `step()` clears
`watch_trigger` before the fetch, so a read watchpoint covering PC
makes the step return `HwWatchPoint`.  In the source the fetch happens
first (src/vm/simulator.rs lines 100-105) and `watch_trigger = None`
comes after (line 112): with a read watchpoint `(0x1000, 4)` and an
INPUT ECALL at PC = `0x1000`, the fetch latches the trigger, the
clear erases it, and the step returns `None` with no trigger left —
not `HwWatchPoint`. -/
theorem C5_counterexample :
    (simStep rrsExecUnused 1 stC5).map
      (fun r : Option ExitCode × Sim => (r.1, r.2.pc, r.2.mem.watchTrigger)) =
      .ok (none, 0x1004, none) ∧
    (simStep rrsExecUnused 1 stC5).map
      (fun r : Option ExitCode × Sim => r.2.mem.cycle.curSegmentResident) =
      .ok [4, 212992, 219648, 219856, 219862] := by
  exact ⟨rfl, rfl⟩

/-- **C5 (amended).**  `step()` fetches the instruction word at PC
through the **non-privileged** path first — so the fetch is counted by
the Cycle Accountant (the PC's page becomes segment-resident) — and
clears `watch_trigger` only afterwards.  A watchpoint match caused
solely by the fetch is therefore erased: for a step whose instruction
is an INPUT ECALL (`T0 = 1`, the step's only memory access is the
fetch), the step returns `None` with an empty trigger, regardless of
which watchpoints are installed. -/
theorem C5_fetch_counted_not_watchable (ex : Sim → Except String Sim) (fuel : ℕ)
    (st : Sim)
    (hpcLo : GUEST_MIN_MEM ≤ st.pc) (hpcHi : st.pc ≤ GUEST_MAX_MEM)
    (hinsn : st.mem.data (st.pc / 1024) (st.pc % 1024 / 4) = 0x73)
    (ht0 : st.registers REG_T0 = 1)
    (hsr : st.mem.cycle.curStepRead = [])
    (hsw : st.mem.cycle.curStepWrite = []) :
    (simStep ex fuel st).map
      (fun r : Option ExitCode × Sim => (r.1, r.2.pc, r.2.mem.watchTrigger)) =
      .ok (none, st.pc + 4, none) ∧
    (∀ ec st2, simStep ex fuel st = .ok (ec, st2) →
      st.pc / 1024 ∈ st2.mem.cycle.curSegmentResident) := by
  have hfetch := readMem_word_spec st.mem st.pc hpcLo hpcHi
  rw [hinsn] at hfetch
  have hstep := simStep_ecall_eq ex fuel st hfetch
  have hcycle : ({ st with
      mem := { readTouch st.mem st.pc 4 with watchTrigger := none } } : Sim).mem.cycle =
      callbackReadMem st.mem.cycle (st.pc / 1024) := readTouch_cycle _ _ _
  have hstepR : (callbackReadMem st.mem.cycle (st.pc / 1024)).curStepRead =
      [st.pc / 1024] := by
    simp [callbackReadMem, hsr, insertSet]
  have hstepW : (callbackReadMem st.mem.cycle (st.pc / 1024)).curStepWrite = [] := by
    simp [callbackReadMem, hsw]
  obtain ⟨c', hcs, hresMem, hstepR', hstepW'⟩ :=
    callbackStep_single_read (callbackReadMem st.mem.cycle (st.pc / 1024))
      (st.pc / 1024) 1 0 hstepR hstepW (by omega)
  set st' : Sim :=
    { st with mem := { readTouch st.mem st.pc 4 with watchTrigger := none } } with hst'
  have ht0' : st'.registers REG_T0 = 1 := ht0
  have hcyc' : st'.mem.cycle = callbackReadMem st.mem.cycle (st.pc / 1024) := hcycle
  have heq : simStep ex fuel st = .ok (none, stepCommit st' (st.pc + 4) c') := by
    rw [hstep, ecall_dispatch_input fuel st' ht0']
    show (match callbackStep st'.mem.cycle 1 0 with
      | .error e => (.error e : Except String (Option ExitCode × Sim))
      | .ok cyc' => .ok (none, stepCommit st' (st.pc + 4) cyc')) = _
    rw [hcyc', hcs]
  constructor
  · rw [heq]
    rfl
  · intro ec st2 h2
    rw [heq] at h2
    simp only [Except.ok.injEq, Prod.mk.injEq] at h2
    rw [← h2.2]
    exact hresMem

/-- Witness for `C5_fetch_counted_not_watchable` at the concrete state
of the counterexample. -/
theorem C5_fetch_counted_not_watchable_witness :
    (GUEST_MIN_MEM ≤ stC5.pc ∧ stC5.pc ≤ GUEST_MAX_MEM ∧
     stC5.mem.data (stC5.pc / 1024) (stC5.pc % 1024 / 4) = 0x73 ∧
     stC5.registers REG_T0 = 1 ∧ stC5.mem.cycle.curStepRead = [] ∧
     stC5.mem.cycle.curStepWrite = []) ∧
    (simStep rrsExecUnused 1 stC5).map
      (fun r : Option ExitCode × Sim => (r.1, r.2.pc, r.2.mem.watchTrigger)) =
      .ok (none, stC5.pc + 4, none) :=
  ⟨⟨by decide, by decide, rfl, rfl, rfl, rfl⟩,
   (C5_fetch_counted_not_watchable rrsExecUnused 1 stC5 (by decide) (by decide)
      rfl rfl rfl rfl).1⟩

/-- **C4 counterexample.**  The claim says a SOFTWARE ecall whose name
matches none of the table is a fatal error.  With the unknown name
`"A"`, `handle_syscall` falls through to its final `Ok(None)`
(src/vm/syscall.rs line 243) and the step completes normally,
returning no exit code and advancing PC to `0x1004`. -/
theorem C4_counterexample :
    asciiBytes "A" ∉ knownSyscallNames ∧
    (simStep rrsExecUnused 8 stC4).map
      (fun r : Option ExitCode × Sim => (r.1, r.2.pc)) = .ok (none, 0x1004) := by
  exact ⟨by decide, rfl⟩

/-- **C4 (amended).**  Every ecall with `registers[T0]` outside
`{0, 1, 2, 3, 4}` is a fatal error (`bail!("Unknown ecall …")`); but a
SOFTWARE ecall whose zero-terminated name matches none of the named
syscalls is **not** fatal: `handle_syscall` silently returns success
with no exit code and an untouched buffer and state. -/
theorem C4_unknown_ecall_fatal_unknown_name_silent (fuel : ℕ) (st st2 : Sim)
    (name g : List ℕ) :
    (st.registers REG_T0 ∉ ([0, 1, 2, 3, 4] : List ℕ) →
      Simulator.ecall fuel st = .error "Unknown ecall") ∧
    (name ∉ knownSyscallNames →
      handleSyscall name g st2 = .ok (none, g, st2)) := by
  constructor
  · intro h
    simp only [List.mem_cons, List.not_mem_nil, or_false, not_or] at h
    obtain ⟨m, hm⟩ : ∃ m, st.registers REG_T0 = m + 5 :=
      ⟨st.registers REG_T0 - 5, by omega⟩
    unfold Simulator.ecall
    rw [hm]
    rfl
  · intro hn
    simp only [knownSyscallNames, List.mem_cons, List.not_mem_nil, or_false,
      not_or] at hn
    obtain ⟨h1, h2, h3, h4, h5, h6, h7, h8, h9, h10, h11, h12⟩ := hn
    unfold handleSyscall
    rw [if_neg h1, if_neg h2, if_neg h3, if_neg h4, if_neg h5, if_neg h6,
      if_neg h7, if_neg h8, if_neg (not_or.mpr ⟨h9, h10⟩), if_neg h11,
      if_neg h12]

/-- Witness for `C4_unknown_ecall_fatal_unknown_name_silent`: ecall
with `T0 = 9` errors, and the unknown name `"A"` silently succeeds. -/
theorem C4_unknown_ecall_fatal_unknown_name_silent_witness :
    (stC4.setReg REG_T0 9).registers REG_T0 ∉ ([0, 1, 2, 3, 4] : List ℕ) ∧
    asciiBytes "A" ∉ knownSyscallNames ∧
    Simulator.ecall 1 (stC4.setReg REG_T0 9) = .error "Unknown ecall" ∧
    handleSyscall (asciiBytes "A") [] stC4 = .ok (none, [], stC4) :=
  ⟨by decide, by decide,
   (C4_unknown_ecall_fatal_unknown_name_silent 1 (stC4.setReg REG_T0 9) stC4
      (asciiBytes "A") []).1 (by decide),
   (C4_unknown_ecall_fatal_unknown_name_silent 1 (stC4.setReg REG_T0 9) stC4
      (asciiBytes "A") []).2 (by decide)⟩

/-- **C9 (code bug).**  With `op = 0`, `x = 256`, `y = 1`, `n = 0` the
result is `z = x * y = 256`, whose little-endian bytes are
`00 01 00 … 00`: a little-endian store would write byte `0x01` at
`z_ptr + 1`.  The source instead issues
`write_mem(z_ptr + i*4, MemAccessSize::Byte, word)` for each of the
eight result words — byte-sized writes that keep only `word & 0xff` —
so only addresses `z_ptr, z_ptr+4, …, z_ptr+28` are written and the
byte at `z_ptr + 1` keeps its prior value `0xEE` instead of becoming
`0x01`.  The handler otherwise behaves as claimed: no exit code, PC
advanced by 4, extra cycle cost 9. -/
theorem C9_bigint_store_truncated :
    (ecallBigint stC9).map
      (fun r : EcallResult =>
        (r.1, r.2.1, r.2.2.1,
         (readMem r.2.2.2.mem 0x801 MemAccessSize.byte true).1,
         (readMem r.2.2.2.mem 0x800 MemAccessSize.byte true).1)) =
      .ok (0x1004, none, 9, some 0xEE, some 0) ∧ (0xEE : ℕ) ≠ 0x01 := by
  exact ⟨rfl, by decide⟩

/-- **C6 counterexample.**  The claim says Debug Adapter memory reads
use privileged accesses, leaving the Cycle Accountant and watchpoints
untouched.  `read_addrs` calls `read_mem` — the **non-privileged**
path — so a one-byte debugger read at `0x1000` latches the read
watchpoint there and inserts page 4 into `cur_step_read`. -/
theorem C6_counterexample :
    (debuggerReadAddrs memC6 0x1000 1).2.watchTrigger =
      some (WatchKind.read, 0x1000) ∧
    (debuggerReadAddrs memC6 0x1000 1).2.cycle.curStepRead = [4] := by
  exact ⟨rfl, rfl⟩

/-- A non-privileged in-window read's state is exactly the touch
effect. -/
theorem readMem_snd (m : Memory) (addr : ℕ) (size : MemAccessSize)
    (h1 : GUEST_MIN_MEM ≤ addr) (h2 : addr ≤ GUEST_MAX_MEM) :
    (readMem m addr size false).2 = readTouch m addr (sizeLen size) := by
  unfold readMem
  rw [if_neg (by unfold GUEST_MIN_MEM GUEST_MAX_MEM at *; omega)]
  rcases size <;> rfl

/-- An in-window read succeeds. -/
theorem readMem_isSome (m : Memory) (addr : ℕ) (size : MemAccessSize) (priv : Bool)
    (h1 : GUEST_MIN_MEM ≤ addr) (h2 : addr ≤ GUEST_MAX_MEM) :
    (readMem m addr size priv).1.isSome = true := by
  unfold readMem
  rw [if_neg (by unfold GUEST_MIN_MEM GUEST_MAX_MEM at *; omega)]
  rcases size <;> simp only [] <;> first | (split_ifs <;> rfl) | rfl

/-- A non-privileged in-window write succeeds and its accountant state
is exactly the touch effect. -/
theorem writeMem_fst_snd (m : Memory) (addr : ℕ) (size : MemAccessSize) (d : ℕ)
    (h1 : GUEST_MIN_MEM ≤ addr) (h2 : addr ≤ GUEST_MAX_MEM) :
    (writeMem m addr size d false).1 = true ∧
    (writeMem m addr size d false).2.cycle = callbackWriteMem m.cycle (addr / 1024) := by
  unfold writeMem
  rw [if_neg (by unfold GUEST_MIN_MEM GUEST_MAX_MEM at *; omega)]
  rcases size <;>
    exact ⟨rfl, by
      show ((writeTouch m addr _).setWord _ _ _).cycle = _
      show (writeTouch m addr _).cycle = _
      exact writeTouch_cycle _ _ _⟩

/-- Any memory access can only enlarge `cur_step_read`. -/
theorem readMem_curStepRead_mono (m : Memory) (addr : ℕ) (size : MemAccessSize)
    (priv : Bool) (q : ℕ) (h : q ∈ m.cycle.curStepRead) :
    q ∈ (readMem m addr size priv).2.cycle.curStepRead := by
  unfold readMem
  split
  · exact h
  · rcases size <;> simp only [] <;> rcases priv
    all_goals
      first
      | exact h
      | (show q ∈ (readTouch m addr _).cycle.curStepRead
         rw [readTouch_cycle]
         exact mem_insertSet_of_mem _ _ _ h)

/-- Any memory access can only enlarge `cur_step_write`. -/
theorem writeMem_curStepWrite_mono (m : Memory) (addr : ℕ) (size : MemAccessSize)
    (d : ℕ) (priv : Bool) (q : ℕ) (h : q ∈ m.cycle.curStepWrite) :
    q ∈ (writeMem m addr size d priv).2.cycle.curStepWrite := by
  unfold writeMem
  split
  · exact h
  · rcases size <;> simp only [] <;> rcases priv
    all_goals
      first
      | exact h
      | (show q ∈ (writeTouch m addr _).cycle.curStepWrite
         rw [writeTouch_cycle]
         exact mem_insertSet_of_mem _ _ _ h)

/-- The debugger read loop only enlarges `cur_step_read`. -/
theorem debuggerReadLoop_curStepRead_mono (count : ℕ) (m : Memory) (addr q : ℕ)
    (h : q ∈ m.cycle.curStepRead) :
    q ∈ (debuggerReadLoop m addr count).2.cycle.curStepRead := by
  induction count generalizing m addr with
  | zero => exact h
  | succ n ih =>
    unfold debuggerReadLoop
    rcases hr : readMem m addr MemAccessSize.byte false with ⟨v, m'⟩
    have hmono := readMem_curStepRead_mono m addr MemAccessSize.byte false q h
    rw [hr] at hmono
    rcases v with _ | b
    · exact hmono
    · simp only []
      rcases hrec : debuggerReadLoop m' (addr + 1) n with ⟨res, m''⟩
      have := ih m' (addr + 1) hmono
      rw [hrec] at this
      rcases res <;> exact this

/-- The debugger write loop only enlarges `cur_step_write`. -/
theorem debuggerWriteAddrs_curStepWrite_mono (data : List ℕ) (m : Memory)
    (addr q : ℕ) (h : q ∈ m.cycle.curStepWrite) :
    q ∈ (debuggerWriteAddrs m addr data).2.cycle.curStepWrite := by
  induction data generalizing m addr with
  | nil => exact h
  | cons b rest ih =>
    unfold debuggerWriteAddrs
    rcases hw : writeMem m addr MemAccessSize.byte b false with ⟨ok, m'⟩
    have hmono := writeMem_curStepWrite_mono m addr MemAccessSize.byte b false q h
    rw [hw] at hmono
    rcases ok
    · exact hmono
    · exact ih m' (addr + 1) hmono

/-- **C6 (amended).**  Debug Adapter memory reads and writes go
through the **non-privileged** memory path: the Cycle Accountant is
notified — the page of the first accessed address enters
`cur_step_read` (reads) or `cur_step_write` (writes) — and a one-byte
debugger read produces exactly the memory state of a non-privileged
guest byte read, watchpoint check and latch included. -/
theorem C6_debugger_accesses_nonprivileged (m : Memory) (startAddr len b : ℕ)
    (data : List ℕ)
    (h1 : GUEST_MIN_MEM ≤ startAddr) (h2 : startAddr < GUEST_MAX_MEM)
    (hlen : 1 ≤ len) :
    startAddr / 1024 ∈
      (debuggerReadAddrs m startAddr len).2.cycle.curStepRead ∧
    startAddr / 1024 ∈
      (debuggerWriteAddrs m startAddr (b :: data)).2.cycle.curStepWrite ∧
    (debuggerReadAddrs m startAddr 1).2 =
      (readMem m startAddr MemAccessSize.byte false).2 := by
  have hle : startAddr ≤ GUEST_MAX_MEM := by
    unfold GUEST_MAX_MEM at *; omega
  have hsnd : (readMem m startAddr MemAccessSize.byte false).2 =
      readTouch m startAddr 1 := readMem_snd m startAddr MemAccessSize.byte h1 hle
  have hsome := readMem_isSome m startAddr MemAccessSize.byte false h1 hle
  rcases hr : readMem m startAddr MemAccessSize.byte false with ⟨v, m'⟩
  rw [hr] at hsnd hsome
  rcases v with _ | bv
  · simp at hsome
  · have hm' : m' = readTouch m startAddr 1 := hsnd
    have hmem' : startAddr / 1024 ∈ m'.cycle.curStepRead := by
      rw [hm', readTouch_cycle]
      exact mem_insertSet_self _ _
    refine ⟨?_, ?_, ?_⟩
    · unfold debuggerReadAddrs
      rw [if_neg (not_not_intro ⟨h1, h2⟩)]
      obtain ⟨k, hk⟩ : ∃ k,
          min (startAddr + len) GUEST_MAX_MEM - startAddr = k + 1 :=
        ⟨min (startAddr + len) GUEST_MAX_MEM - startAddr - 1, by
          unfold GUEST_MAX_MEM at *; omega⟩
      show startAddr / 1024 ∈ (debuggerReadLoop m startAddr
        (min (startAddr + len) GUEST_MAX_MEM - startAddr)).2.cycle.curStepRead
      rw [hk]
      unfold debuggerReadLoop
      rw [hr]
      simp only []
      rcases hrec : debuggerReadLoop m' (startAddr + 1) k with ⟨res, m''⟩
      have := debuggerReadLoop_curStepRead_mono k m' (startAddr + 1) _ hmem'
      rw [hrec] at this
      rcases res <;> exact this
    · unfold debuggerWriteAddrs
      obtain ⟨hok, hcyc⟩ := writeMem_fst_snd m startAddr MemAccessSize.byte b h1 hle
      rcases hw : writeMem m startAddr MemAccessSize.byte b false with ⟨ok, mw⟩
      rw [hw] at hok hcyc
      subst hok
      have hmw : startAddr / 1024 ∈ mw.cycle.curStepWrite := by
        rw [hcyc]
        exact mem_insertSet_self _ _
      exact debuggerWriteAddrs_curStepWrite_mono data mw (startAddr + 1) _ hmw
    · unfold debuggerReadAddrs
      rw [if_neg (not_not_intro ⟨h1, h2⟩)]
      have hone : min (startAddr + 1) GUEST_MAX_MEM - startAddr = 1 := by
        unfold GUEST_MAX_MEM at *; omega
      show (debuggerReadLoop m startAddr
        (min (startAddr + 1) GUEST_MAX_MEM - startAddr)).2 = _
      rw [hone]
      unfold debuggerReadLoop
      rw [hr]
      rfl

/-- Witness for `C6_debugger_accesses_nonprivileged` at the C6
counterexample memory. -/
theorem C6_debugger_accesses_nonprivileged_witness :
    (GUEST_MIN_MEM ≤ 0x1000 ∧ (0x1000 : ℕ) < GUEST_MAX_MEM ∧ (1 : ℕ) ≤ 1) ∧
    (0x1000 / 1024 ∈
      (debuggerReadAddrs memC6 0x1000 1).2.cycle.curStepRead ∧
     0x1000 / 1024 ∈
      (debuggerWriteAddrs memC6 0x1000 [0xAB]).2.cycle.curStepWrite ∧
     (debuggerReadAddrs memC6 0x1000 1).2 =
      (readMem memC6 0x1000 MemAccessSize.byte false).2) :=
  ⟨⟨by decide, by decide, by decide⟩,
   C6_debugger_accesses_nonprivileged memC6 0x1000 1 0xAB [] (by decide)
     (by decide) (by decide)⟩

/-- A byte write fails exactly outside `[GUEST_MIN_MEM, GUEST_MAX_MEM]`
(closed interval — the source's `addr > GUEST_MAX_MEM` test). -/
theorem writeMem_byte_fail_iff (m : Memory) (a d : ℕ) :
    (writeMem m a MemAccessSize.byte d false).1 = false ↔
      (a < GUEST_MIN_MEM ∨ GUEST_MAX_MEM < a) := by
  unfold writeMem
  split
  · simp_all
  · simp_all

/-- Reading back the byte just written returns the stored low byte. -/
theorem writeMem_byte_read_back (m : Memory) (a d : ℕ)
    (h1 : GUEST_MIN_MEM ≤ a) (h2 : a ≤ GUEST_MAX_MEM) :
    (readMem (writeMem m a MemAccessSize.byte d false).2 a
      MemAccessSize.byte true).1 = some (d % 256) := by
  have hb : ¬(a < GUEST_MIN_MEM ∨ a > GUEST_MAX_MEM) := by omega
  unfold writeMem readMem
  simp only [if_neg hb, Memory.setWord]
  simp only [and_self, if_pos, if_true]
  split_ifs <;> simp <;> omega

/-- A byte write leaves every other byte's readable value unchanged. -/
theorem writeMem_byte_preserves (m : Memory) (a d a' : ℕ) (hne : a' ≠ a) :
    (readMem (writeMem m a MemAccessSize.byte d false).2 a'
      MemAccessSize.byte true).1 =
    (readMem m a' MemAccessSize.byte true).1 := by
  by_cases hb : a < GUEST_MIN_MEM ∨ a > GUEST_MAX_MEM
  · have : (writeMem m a MemAccessSize.byte d false).2 = m := by
      unfold writeMem
      rw [if_pos hb]
    rw [this]
  · by_cases hb' : a' < GUEST_MIN_MEM ∨ a' > GUEST_MAX_MEM
    · unfold readMem
      simp only [if_pos hb']
    · unfold writeMem readMem
      simp only [if_neg hb, if_neg hb', Memory.setWord, Bool.false_eq_true,
        if_false]
      by_cases hslot : a' / 1024 = a / 1024 ∧ a' % 1024 / 4 = a % 1024 / 4
      · have hoff : a' % 1024 % 4 ≠ a % 1024 % 4 := by omega
        obtain ⟨hs1, hs2⟩ := hslot
        simp only [hs1, hs2, writeTouch_data, and_self, if_true]
        split_ifs <;> simp only [Option.some.injEq] <;> omega
      · simp only [if_neg hslot, writeTouch_data]

/-- The debugger write loop never changes bytes below its start
address. -/
theorem debuggerWriteAddrs_preserves_lower (data : List ℕ) (m : Memory)
    (addr a : ℕ) (h : a < addr) :
    (readMem (debuggerWriteAddrs m addr data).2 a MemAccessSize.byte true).1 =
      (readMem m a MemAccessSize.byte true).1 := by
  induction data generalizing m addr with
  | nil => rfl
  | cons b rest ih =>
    by_cases hb : addr < GUEST_MIN_MEM ∨ addr > GUEST_MAX_MEM
    · have hw : writeMem m addr MemAccessSize.byte b false = (false, m) := by
        unfold writeMem
        rw [if_pos hb]
      unfold debuggerWriteAddrs
      rw [hw]
    · obtain ⟨hok, _⟩ := writeMem_fst_snd m addr MemAccessSize.byte b
        (by omega) (by omega)
      rcases hw : writeMem m addr MemAccessSize.byte b false with ⟨ok, m1⟩
      rw [hw] at hok
      subst hok
      have hm1 : m1 = (writeMem m addr MemAccessSize.byte b false).2 := by
        rw [hw]
      unfold debuggerWriteAddrs
      rw [hw]
      simp only []
      rw [ih m1 (addr + 1) (by omega), hm1,
        writeMem_byte_preserves m addr b a (by omega)]

/-- **C10 counterexample.**  The claim says `write_addrs` returns a
non-fatal error whenever the byte range's tail lies outside the guest
window `[0x400, 0x0C00_0000)`.  A one-byte write starting at
`0x0C00_0000` — a range entirely outside the window — succeeds,
because `write_mem` only rejects addresses strictly above
`GUEST_MAX_MEM`. -/
theorem C10_counterexample :
    (debuggerWriteAddrs memC10 0x0C000000 [0xAB]).1 = .ok () ∧
    ¬(GUEST_MIN_MEM ≤ 0x0C000000 ∧ (0x0C000000 : ℕ) < GUEST_MAX_MEM) := by
  exact ⟨rfl, by decide⟩

/-- **C10 (amended).**  `Debugger::write_addrs` returns a non-fatal
error iff some byte of the range falls below `0x400` or strictly above
`0x0C00_0000` (the address `0x0C00_0000` itself is writable); and the
operation is not atomic: every byte whose prefix of addresses is
writable has been written to guest memory (low byte of the supplied
value) and is not rolled back when a later byte fails. -/
theorem C10_write_addrs_no_rollback (m : Memory) (start : ℕ)
    (data : List ℕ) :
    ((debuggerWriteAddrs m start data).1 = .error () ↔
      ∃ i, i < data.length ∧
        (start + i < GUEST_MIN_MEM ∨ GUEST_MAX_MEM < start + i)) ∧
    (∀ j (hj : j < data.length),
      (∀ i, i ≤ j → GUEST_MIN_MEM ≤ start + i ∧ start + i ≤ GUEST_MAX_MEM) →
      (readMem (debuggerWriteAddrs m start data).2 (start + j)
        MemAccessSize.byte true).1 = some (data.get ⟨j, hj⟩ % 256)) := by
  induction data generalizing m start with
  | nil =>
    constructor
    · simp [debuggerWriteAddrs]
    · intro j hj
      exact absurd hj (by simp)
  | cons b rest ih =>
    by_cases hb : start < GUEST_MIN_MEM ∨ start > GUEST_MAX_MEM
    · have hw : writeMem m start MemAccessSize.byte b false = (false, m) := by
        unfold writeMem
        rw [if_pos hb]
      constructor
      · unfold debuggerWriteAddrs
        rw [hw]
        simp only [List.length_cons, true_iff]
        exact ⟨0, by omega, by omega⟩
      · intro j hj hpre
        have := hpre 0 (Nat.zero_le _)
        omega
    · obtain ⟨hok, _⟩ := writeMem_fst_snd m start MemAccessSize.byte b
        (by omega) (by omega)
      rcases hw : writeMem m start MemAccessSize.byte b false with ⟨ok, m1⟩
      rw [hw] at hok
      subst hok
      have hm1 : m1 = (writeMem m start MemAccessSize.byte b false).2 := by
        rw [hw]
      obtain ⟨ih1, ih2⟩ := ih m1 (start + 1)
      constructor
      · unfold debuggerWriteAddrs
        rw [hw]
        simp only []
        rw [ih1]
        constructor
        · rintro ⟨i, hi, hout⟩
          exact ⟨i + 1, by simpa using Nat.succ_lt_succ hi, by omega⟩
        · rintro ⟨i, hi, hout⟩
          cases i with
          | zero => omega
          | succ k => exact ⟨k, by simpa using Nat.lt_of_succ_lt_succ hi, by omega⟩
      · intro j hj hpre
        unfold debuggerWriteAddrs
        rw [hw]
        simp only []
        cases j with
        | zero =>
          have h0 := hpre 0 (Nat.zero_le _)
          have hlow := debuggerWriteAddrs_preserves_lower rest m1 (start + 1)
            (start + 0) (by omega)
          have hrb := writeMem_byte_read_back m start b (by omega) (by omega)
          rw [← hm1] at hrb
          exact hlow.trans hrb
        | succ k =>
          have hk : k < rest.length := Nat.lt_of_succ_lt_succ hj
          have hpre' : ∀ i, i ≤ k →
              GUEST_MIN_MEM ≤ start + 1 + i ∧ start + 1 + i ≤ GUEST_MAX_MEM := by
            intro i hik
            have := hpre (i + 1) (by omega)
            omega
          have h2 := ih2 k hk hpre'
          rw [show start + 1 + k = start + (k + 1) from by omega] at h2
          exact h2

/-- Witness for `C10_write_addrs_no_rollback` at a concrete
straddling write: two bytes starting at `0x0C000000` — the first byte
is written and kept, the second fails. -/
theorem C10_write_addrs_no_rollback_witness :
    ((debuggerWriteAddrs memC10 0x0C000000 [0xAB, 0xCD]).1 = .error () ↔
      ∃ i, i < 2 ∧
        (0x0C000000 + i < GUEST_MIN_MEM ∨ GUEST_MAX_MEM < 0x0C000000 + i)) ∧
    (readMem (debuggerWriteAddrs memC10 0x0C000000 [0xAB, 0xCD]).2 0x0C000000
      MemAccessSize.byte true).1 = some 0xAB :=
  ⟨(C10_write_addrs_no_rollback memC10 0x0C000000 [0xAB, 0xCD]).1,
   (C10_write_addrs_no_rollback memC10 0x0C000000 [0xAB, 0xCD]).2 0
     (by decide) (fun i hi => by interval_cases i <;> exact ⟨by decide, by decide⟩)⟩
